import Mathlib

/-!
# Tadpole Dash — verification of the game-simulation core

Shallow embedding of the simulation core of the `tadpole-dash` arcade game
(source: `src/hooks/useGameLogic.ts` together with the board constants in
`src/lib/gameConstants.ts`).  Pixel coordinates, speeds and millisecond
timers are embedded as rationals (`ℚ`); the JavaScript code computes with
IEEE doubles, but every branch condition modelled here is an order
comparison or exact arithmetic on small quantities, so `ℚ` is a faithful
idealisation.  Each call to `Math.random()` is modelled by an explicit
parameter (or a stream `ℕ → ℚ` of draws, one per consumption site), always
accompanied by the hypothesis that the draw lies in `[0, 1)`.
-/

namespace TadpoleDash

/-! ## Board constants (`gameConstants.ts`) -/

def GAME_WIDTH : ℚ := 360
def TILE_SIZE : ℚ := 40
def PLAYER_SIZE : ℚ := 36
def TOTAL_ROWS : ℕ := 15
def GAME_HEIGHT : ℚ := TOTAL_ROWS * TILE_SIZE

inductive LaneType where
  | road | water | safe | home
  deriving DecidableEq, Repr

structure LaneConfig where
  type : LaneType
  y : ℕ
  speed : Option ℚ := none
  direction : Option ℤ := none
  objectType : Option String := none
  deriving DecidableEq, Repr

def LANES_CONFIG : List LaneConfig :=
  [ ⟨.home, 0, none, none, none⟩,
    ⟨.water, 1, some 0.8, some (-1), some "log"⟩,
    ⟨.water, 2, some 1.0, some 1, some "turtle"⟩,
    ⟨.water, 3, some 0.6, some (-1), some "log"⟩,
    ⟨.water, 4, some 1.2, some 1, some "turtle"⟩,
    ⟨.water, 5, some 0.9, some (-1), some "log"⟩,
    ⟨.water, 6, some 1.1, some 1, some "turtle"⟩,
    ⟨.safe, 7, none, none, none⟩,
    ⟨.road, 8, some 1.0, some 1, some "car"⟩,
    ⟨.road, 9, some 1.5, some (-1), some "truck"⟩,
    ⟨.road, 10, some 0.8, some 1, some "car"⟩,
    ⟨.road, 11, some 1.2, some (-1), some "truck"⟩,
    ⟨.road, 12, some 1.0, some 1, some "car"⟩,
    ⟨.road, 13, some 1.3, some (-1), some "car"⟩,
    ⟨.safe, 14, none, none, none⟩ ]

structure HomeSpot where
  x : ℚ
  filled : Bool
  deriving DecidableEq, Repr

def HOME_SPOTS : List HomeSpot :=
  [⟨20, false⟩, ⟨90, false⟩, ⟨160, false⟩, ⟨230, false⟩, ⟨300, false⟩]

/-- `OBJECT_WIDTHS` lookup table; callers supply the `|| default`. -/
def OBJECT_WIDTHS : String → Option ℚ
  | "motorcycle" => some 25
  | "car-small" => some 40
  | "car" => some 50
  | "car-wide" => some 80
  | "truck" => some 80
  | "truck-long" => some 120
  | "log-short" => some 80
  | "log-medium" => some 120
  | "log-long" => some 160
  | "turtle" => some 100
  | _ => none

def POINTS_MOVE_FORWARD : ℤ := 10
def POINTS_REACH_HOME : ℤ := 50
def POINTS_ALL_HOMES_FILLED : ℤ := 1000
def POINTS_LEVEL_COMPLETE : ℤ := 500

/-! ## Derived constants (`useGameLogic.ts` lines 14–19) -/

def STARTING_X : ℚ := GAME_WIDTH / 2 - PLAYER_SIZE / 2

/-- `START_ROW = Math.max(...LANES_CONFIG.map(c => c.y))`. -/
def START_ROW : ℕ := (LANES_CONFIG.map (·.y)).foldr max 0

def STARTING_Y : ℚ := START_ROW * TILE_SIZE + 2

def LEVEL1_TURTLE_SUBMERGE_GRACE_MS : ℚ := 200

/-! ## Dive-phase state machine (`DIVE_PHASES`, lines 23–28) -/

inductive DivePhase where
  | surface | diving | submerged | rising
  deriving DecidableEq, Repr

def DIVE_PHASES.duration : DivePhase → ℚ
  | .surface => 4720
  | .diving => 800
  | .submerged => 2360
  | .rising => 800

def DIVE_PHASES.next : DivePhase → DivePhase
  | .surface => .diving
  | .diving => .submerged
  | .submerged => .rising
  | .rising => .surface

/-! ## Runtime data model (`gameTypes.ts`) -/

structure GameObject where
  x : ℚ
  y : ℚ
  width : ℚ
  height : ℚ
  speed : ℚ
  direction : ℤ
  type : String
  isDiving : Bool := false
  divePhase : Option DivePhase := none
  diveTimer : Option ℚ := none
  colorVariant : ℕ := 0
  deriving DecidableEq, Repr

structure Lane where
  y : ℚ
  objects : List GameObject
  type : LaneType
  speed : ℚ
  direction : ℤ
  objectType : String
  deriving DecidableEq, Repr

structure Player where
  x : ℚ
  y : ℚ
  lives : ℤ
  score : ℤ
  isMoving : Bool
  targetX : ℚ
  targetY : ℚ
  deriving DecidableEq, Repr

def initialPlayer : Player :=
  { x := STARTING_X, y := STARTING_Y, lives := 3, score := 0,
    isMoving := false, targetX := STARTING_X, targetY := STARTING_Y }

/-! ## Turtle safety and water support (lines 43–82) -/

/-- `isTurtleSafeToStandOn` (lines 43–53). -/
def isTurtleSafeToStandOn (obj : GameObject) (level : ℕ) : Bool :=
  let phase := obj.divePhase.getD .surface
  if phase ≠ .submerged then true
  else if level ≠ 1 then false
  else
    let remaining := obj.diveTimer.getD 0
    let dur := DIVE_PHASES.duration .submerged
    decide (remaining ≥ dur - LEVEL1_TURTLE_SUBMERGE_GRACE_MS ∨
            remaining ≤ LEVEL1_TURTLE_SUBMERGE_GRACE_MS)

structure WaterSupport where
  supported : Bool
  carrySpeed : ℚ
  carryDir : ℤ
  deriving DecidableEq, Repr

/-- The `for (const obj of lane.objects)` loop body of `getWaterSupport`:
first object whose inset extent contains the frog's centre decides. -/
def getWaterSupportAux (frogCenterX : ℚ) (level : ℕ) :
    List GameObject → WaterSupport
  | [] => ⟨false, 0, 0⟩
  | obj :: rest =>
    let platformLeft := obj.x + 2
    let platformRight := obj.x + obj.width - 2
    if frogCenterX ≥ platformLeft ∧ frogCenterX ≤ platformRight then
      if obj.type = "turtle" ∧ ¬ isTurtleSafeToStandOn obj level then
        ⟨false, 0, 0⟩
      else
        ⟨true, obj.speed, obj.direction⟩
    else
      getWaterSupportAux frogCenterX level rest

/-- `getWaterSupport` (lines 55–82): centre-point support test. -/
def getWaterSupport (player : Player) (lane : Lane) (level : ℕ) : WaterSupport :=
  getWaterSupportAux (player.x + PLAYER_SIZE / 2) level lane.objects

/-! ## Per-frame lane update (`gameLoop`, lines 579–709) -/

def wrapBuffer : ℚ := 80

/-- `laneGap` (lines 579–583). -/
def laneGap (level : ℕ) (laneType : LaneType) : ℚ :=
  if laneType = .road then (if level = 1 then TILE_SIZE * 2 else TILE_SIZE)
  else if laneType = .water then (if level = 1 then TILE_SIZE else 32)
  else 0

/-- First pass of the lane update (lines 593–622): advance one object's `x`,
detect wrap, and run the turtle dive-phase step.  `u` models the
`Math.random()` draw used for the extra dwell on re-entering `surface`. -/
def moveObj (mult dt u : ℚ) (obj : GameObject) : GameObject × Bool :=
  let dx := obj.speed * (obj.direction : ℚ) * mult * (dt / 16)
  let x := obj.x + dx
  let wrappedRight := obj.direction = 1 ∧ x > GAME_WIDTH + wrapBuffer
  let wrappedLeft := obj.direction = -1 ∧ x < -obj.width - wrapBuffer
  let base := { obj with x := x }
  let nextObj :=
    match obj.diveTimer, obj.divePhase with
    | some t, some p =>
      if obj.type = "turtle" then
        let newDiveTimer := t - dt
        if newDiveTimer ≤ 0 then
          let newDivePhase := DIVE_PHASES.next p
          let reload := DIVE_PHASES.duration newDivePhase +
            (if newDivePhase = .surface then u * 2000 else 0)
          { base with diveTimer := some reload, divePhase := some newDivePhase,
                      isDiving := decide (newDivePhase = .submerged) }
        else
          { base with diveTimer := some newDiveTimer, divePhase := some p,
                      isDiving := decide (p = .submerged) }
      else base
    | _, _ => base
  (nextObj, wrappedRight ∨ wrappedLeft)

/-- The in-place pairwise push of the road ordering pass (lines 631–669):
walk the position-sorted list, pushing each `behind` object back to the
required distance from the (possibly already pushed) `ahead` object.
Elements are tagged with their index in the lane's object array so the
in-place mutation of the source can be written back. -/
def pushChainGo (dir : ℤ) (minGap : ℚ) :
    (ℕ × GameObject) → List (ℕ × GameObject) → List (ℕ × GameObject)
  | _, [] => []
  | a, b :: rest =>
    if a.2.type = "motorcycle" ∧ b.2.type = "motorcycle" then
      b :: pushChainGo dir minGap b rest
    else
      let requiredGap :=
        if a.2.type = "motorcycle" ∨ b.2.type = "motorcycle" then minGap * 0.6 else minGap
      let b' :=
        if dir = 1 then
          let desiredX := a.2.x - requiredGap - b.2.width
          if b.2.x > desiredX then (b.1, { b.2 with x := desiredX }) else b
        else
          let desiredX := a.2.x + a.2.width + requiredGap
          if b.2.x < desiredX then (b.1, { b.2 with x := desiredX }) else b
      b' :: pushChainGo dir minGap b' rest

def pushChain (dir : ℤ) (minGap : ℚ) : List (ℕ × GameObject) → List (ℕ × GameObject)
  | [] => []
  | a :: rest => a :: pushChainGo dir minGap a rest

/-- Comparator of the road ordering pass's `sort` call: descending `x` for
direction `1`, ascending `x` for direction `-1`.  JavaScript `Array.sort`
is stable, and a stable sort's output is unique, so the stable
`List.insertionSort` is an exact model. -/
def roadSortRel (dir : ℤ) (a b : ℕ × GameObject) : Prop :=
  if dir = 1 then b.2.x ≤ a.2.x else a.2.x ≤ b.2.x

instance (dir : ℤ) : DecidableRel (roadSortRel dir) := fun a b => by
  unfold roadSortRel; infer_instance

/-- Road ordering pass (lines 624–671): sort the non-wrapped objects by
position in the direction of travel, push tail-gaters back, and write the
results back into the original array order. -/
def roadPass (dir : ℤ) (minGap : ℚ) (moved : List (GameObject × Bool)) :
    List (GameObject × Bool) :=
  let tagged := moved.enum.filterMap fun iw =>
    if iw.2.2 then none else some (iw.1, iw.2.1)
  let sorted := List.insertionSort (roadSortRel dir) tagged
  let pushed := pushChain dir minGap sorted
  moved.enum.map fun iw =>
    if iw.2.2 then iw.2
    else (((pushed.find? (fun p => p.1 = iw.1)).map (·.2)).getD iw.2.1, iw.2.2)

/-- Wrap re-insertion for direction `1` (lines 679–691): walk the objects in
array order, re-placing each wrapped one below the running `insertX`. -/
def reinsertRight (baseGap : ℚ) : ℚ → List (GameObject × Bool) → List (GameObject × Bool)
  | _, [] => []
  | insertX, (obj, w) :: rest =>
    if w then
      let gap := if obj.type = "motorcycle" then baseGap * 0.6 else baseGap
      let newX := insertX - obj.width - gap
      ({ obj with x := newX }, w) :: reinsertRight baseGap newX rest
    else (obj, w) :: reinsertRight baseGap insertX rest

/-- Wrap re-insertion for direction `-1` (lines 692–705). -/
def reinsertLeft (baseGap : ℚ) : ℚ → List (GameObject × Bool) → List (GameObject × Bool)
  | _, [] => []
  | insertX, (obj, w) :: rest =>
    if w then
      let gap := if obj.type = "motorcycle" then baseGap * 0.6 else baseGap
      ({ obj with x := insertX + gap }, w) :: reinsertLeft baseGap (insertX + obj.width + gap) rest
    else (obj, w) :: reinsertLeft baseGap insertX rest

/-- `Math.min(...nonWrapped.map(x))` capped at `-wrapBuffer` (lines 681–684). -/
def insertX0Right (nonWrapped : List GameObject) : ℚ :=
  (nonWrapped.map (·.x)).foldr min (-wrapBuffer)

/-- `Math.max(...nonWrapped.map(x + width))` floored at
`GAME_WIDTH + wrapBuffer` (lines 694–697). -/
def insertX0Left (nonWrapped : List GameObject) : ℚ :=
  (nonWrapped.map (fun o => o.x + o.width)).foldr max (GAME_WIDTH + wrapBuffer)

/-- Wrap re-insertion (lines 673–706). -/
def wrapReinsert (baseGap : ℚ) (dir : ℤ) (moved : List (GameObject × Bool)) :
    List (GameObject × Bool) :=
  let nonWrapped := (moved.filter fun m => !m.2).map (·.1)
  if dir = 1 then reinsertRight baseGap (insertX0Right nonWrapped) moved
  else reinsertLeft baseGap (insertX0Left nonWrapped) moved

/-- The `lane.objects.map(...)` first pass (lines 593–622) with explicit
index threading for the per-object random draw. -/
def movePass (mult dt : ℚ) (u : ℕ → ℚ) : ℕ → List GameObject → List (GameObject × Bool)
  | _, [] => []
  | i, o :: rest => moveObj mult dt (u i) o :: movePass mult dt u (i + 1) rest

/-- Full per-lane step of the frame loop (lines 587–709).  `uSurface i`
models the `Math.random()` dwell draw for the object at index `i`. -/
def updateLane (level : ℕ) (mult dt : ℚ) (uSurface : ℕ → ℚ) (lane : Lane) : Lane :=
  if lane.type = .safe ∨ lane.type = .home then lane
  else
    let minGap := if lane.type = .road then (if level = 1 then TILE_SIZE * 2 else TILE_SIZE)
                  else TILE_SIZE
    let moved := movePass mult dt uSurface 0 lane.objects
    let moved := if lane.type = .road then roadPass lane.direction minGap moved else moved
    let moved := if moved.any (·.2) then wrapReinsert (laneGap level lane.type) lane.direction moved
                 else moved
    { lane with objects := moved.map (·.1) }

/-! ## Lane object factory (`createLaneObjects`, lines 84–229)

Randomness: each `Math.random()` consumption site of the factory gets its
own stream in `LaneRand`; a stream value models one independent uniform
draw, always used under the hypothesis that it lies in `[0, 1)`. -/

structure LaneRand where
  speedMult : ℕ → ℚ
  color : ℕ → ℚ
  phase0 : ℚ
  logPick : ℕ → ℚ
  dive0 : ℕ → ℚ

def LaneRand.Valid (r : LaneRand) : Prop :=
  (∀ i, 0 ≤ r.speedMult i ∧ r.speedMult i < 1) ∧
  (∀ i, 0 ≤ r.color i ∧ r.color i < 1) ∧
  (0 ≤ r.phase0 ∧ r.phase0 < 1) ∧
  (∀ i, 0 ≤ r.logPick i ∧ r.logPick i < 1) ∧
  (∀ i, 0 ≤ r.dive0 i ∧ r.dive0 i < 1)

/-- `getRandomVehicleType` (lines 84–94): deterministic seed. -/
def getRandomVehicleType (level laneY i : ℕ) : String :=
  let seed := laneY * 7 + level * 13 + i * 11
  if level ≤ 2 then
    ["car-small", "car-small", "car", "car-wide", "motorcycle"].getD (seed % 5) "car"
  else
    ["car-small", "car", "car-wide", "truck", "truck-long", "motorcycle", "motorcycle"].getD
      (seed % 7) "car"

/-- `getVehicleSpeedMultiplier` (lines 97–107); `u` models the draw. -/
def getVehicleSpeedMultiplier (vehicleType : String) (u : ℚ) : ℚ :=
  if vehicleType = "motorcycle" then 1.6 + u * 0.4
  else if vehicleType = "car-small" then 1.1 + u * 0.3
  else if vehicleType = "car" then 0.9 + u * 0.3
  else if vehicleType = "car-wide" then 0.7 + u * 0.2
  else if vehicleType = "truck" then 0.6 + u * 0.2
  else if vehicleType = "truck-long" then 0.5 + u * 0.15
  else 1

def LOG_TYPES : List String := ["log-short", "log-medium", "log-long"]

/-- `pickLogType` (line 110).  For a draw in `[0, 1)` the index is always in
range; the default is unreachable under `LaneRand.Valid`. -/
def pickLogType (u : ℚ) : String := LOG_TYPES.getD (⌊u * 3⌋).toNat "log-short"

structure VehicleData where
  type : String
  width : ℚ
  speedMult : ℚ

/-- Pre-generation pass of road vehicle data (lines 139–145). -/
def roadVehicleData (level laneY : ℕ) (r : LaneRand) (numObjects : ℕ) : List VehicleData :=
  (List.range numObjects).map fun i =>
    let objectType := getRandomVehicleType level laneY i
    ⟨objectType, (OBJECT_WIDTHS objectType).getD 60,
      getVehicleSpeedMultiplier objectType (r.speedMult i)⟩

/-- `i + 1 < numObjects && vehicleData[i + 1].type === 'motorcycle'`
(line 156), as a lookahead on the remaining vehicle data. -/
def nextIsMoto : List VehicleData → Bool
  | [] => false
  | d2 :: _ => d2.type == "motorcycle"

/-- Road spawn-position loop (lines 149–184). -/
def roadBuild (cfg : LaneConfig) (r : LaneRand) (spacing levelSpeedMultiplier : ℚ)
    (dir : ℤ) : List VehicleData → ℕ → ℚ → List GameObject
  | [], _, _ => []
  | d :: rest, i, currentOffset =>
    let isMotorcycle : Bool := d.type == "motorcycle"
    let gapMultiplier : ℚ := if isMotorcycle || nextIsMoto rest then 0.6 else 1
    let gap := spacing * gapMultiplier
    let spawnX := if dir = 1 then -d.width - currentOffset else GAME_WIDTH + currentOffset
    { x := spawnX, y := (cfg.y : ℚ) * TILE_SIZE, width := d.width, height := TILE_SIZE - 4,
      speed := (cfg.speed.getD 1) * levelSpeedMultiplier * d.speedMult, direction := dir,
      type := d.type, isDiving := false, divePhase := none, diveTimer := none,
      colorVariant := (⌊r.color i * 4⌋).toNat } ::
      roadBuild cfg r spacing levelSpeedMultiplier dir rest (i + 1) (currentOffset + d.width + gap)

/-- Water spawn loop (lines 200–223).  The loop runs while
`x < GAME_WIDTH + buffer` with `buffer = GAME_WIDTH + 240`; every platform
is at least 80 px wide, so it terminates. -/
def waterBuild (cfg : LaneConfig) (level : ℕ) (r : LaneRand) (speedMultiplier : ℚ)
    (i : ℕ) (x : ℚ) : List GameObject :=
  if hx : x < GAME_WIDTH + (GAME_WIDTH + 240) then
    let gap : ℚ := if level = 1 then TILE_SIZE else 32
    let isTurtle := cfg.objectType = some "turtle"
    let objectType := if isTurtle then "turtle" else pickLogType (r.logPick i)
    let objectWidth := (OBJECT_WIDTHS objectType).getD 100
    { x := x, y := (cfg.y : ℚ) * TILE_SIZE, width := objectWidth, height := TILE_SIZE,
      speed := (cfg.speed.getD 1) * speedMultiplier, direction := cfg.direction.getD 1,
      type := objectType, isDiving := false,
      divePhase := if isTurtle then some .surface else none,
      diveTimer := if isTurtle then
          some (DIVE_PHASES.duration .surface * 0.4 +
            r.dive0 i * DIVE_PHASES.duration .surface * 0.6)
        else none,
      colorVariant := (⌊r.color i * 4⌋).toNat } ::
      waterBuild cfg level r speedMultiplier (i + 1) (x + objectWidth + gap)
  else []
termination_by (⌈GAME_WIDTH + (GAME_WIDTH + 240) - x⌉).toNat
decreasing_by
  show (⌈GAME_WIDTH + (GAME_WIDTH + 240) - (x + objectWidth + gap)⌉).toNat <
    (⌈GAME_WIDTH + (GAME_WIDTH + 240) - x⌉).toNat
  have hw : (80 : ℚ) ≤ objectWidth := by
    unfold objectWidth objectType isTurtle
    split
    · norm_num [OBJECT_WIDTHS]
    · unfold pickLogType
      generalize (⌊r.logPick i * 3⌋).toNat = n
      rcases n with _ | _ | _ | m <;> norm_num [LOG_TYPES, OBJECT_WIDTHS, List.getD]
  have hg : (32 : ℚ) ≤ gap := by
    unfold gap; split <;> norm_num [TILE_SIZE]
  have hpos : (0 : ℚ) < GAME_WIDTH + (GAME_WIDTH + 240) - x := by linarith
  have hceil : ⌈GAME_WIDTH + (GAME_WIDTH + 240) - (x + objectWidth + gap)⌉ <
      ⌈GAME_WIDTH + (GAME_WIDTH + 240) - x⌉ := by
    have h1 : GAME_WIDTH + (GAME_WIDTH + 240) - (x + objectWidth + gap) ≤
        GAME_WIDTH + (GAME_WIDTH + 240) - x - 1 := by linarith
    calc ⌈GAME_WIDTH + (GAME_WIDTH + 240) - (x + objectWidth + gap)⌉ ≤
        ⌈GAME_WIDTH + (GAME_WIDTH + 240) - x - 1⌉ := Int.ceil_le_ceil h1
      _ < ⌈GAME_WIDTH + (GAME_WIDTH + 240) - x⌉ := by
          rw [Int.ceil_sub_one]; omega
  have hcpos : (0 : ℤ) < ⌈GAME_WIDTH + (GAME_WIDTH + 240) - x⌉ := Int.ceil_pos.mpr hpos
  omega

/-- `createLaneObjects` (lines 112–229). -/
def createLaneObjects (cfg : LaneConfig) (level : ℕ) (r : LaneRand) : List GameObject :=
  if cfg.type = .safe ∨ cfg.type = .home ∨ cfg.objectType = none then []
  else if cfg.type = .road then
    let baseSpacing : ℚ := if level = 1 then 420 else 300
    let spacingReduction : ℚ := min (((level : ℚ) - 1) * 30) 110
    let maxVehicleWidth : ℚ := if level ≤ 2 then 80 else 120
    let minRoadGap : ℚ := if level = 1 then TILE_SIZE * 2 else TILE_SIZE
    let minRoadSpacing := maxVehicleWidth + minRoadGap
    let spacing := max (baseSpacing - spacingReduction) minRoadSpacing
    let numObjects := (⌈(GAME_WIDTH + spacing * 2) / spacing⌉).toNat
    let levelSpeedMultiplier : ℚ := 1 + ((level : ℚ) - 1) * 0.15
    let dir := cfg.direction.getD 1
    roadBuild cfg r spacing levelSpeedMultiplier dir
      (roadVehicleData level cfg.y r numObjects) 0 0
  else if cfg.type = .water then
    let gap : ℚ := if level = 1 then TILE_SIZE else 32
    let speedMultiplier : ℚ := 1 + ((level : ℚ) - 1) * 0.12
    waterBuild cfg level r speedMultiplier 0 (-(GAME_WIDTH + 240) + r.phase0 * (gap * 2))
  else []

/-! ## Power-ups and run state -/

/-- `MID_SAFE_ROW` (line 18). -/
def MID_SAFE_ROW : ℕ :=
  ((LANES_CONFIG.find? fun c => c.type = .safe ∧ c.y ≠ START_ROW).map (·.y)).getD START_ROW

inductive PowerUpType where
  | extraLife | invincibility
  deriving DecidableEq, Repr

structure PowerUp where
  x : ℚ
  y : ℚ
  type : PowerUpType
  collected : Bool
  deriving DecidableEq, Repr

/-- `createPowerUp` (lines 231–243); `u1 u2 u3` model the three draws. -/
def createPowerUp (u1 u2 u3 : ℚ) : Option PowerUp :=
  if u1 > 0.3 then none
  else some { x := u2 * (GAME_WIDTH - 30) + 15, y := (MID_SAFE_ROW : ℚ) * TILE_SIZE + 5,
              type := if u3 > 0.7 then .extraLife else .invincibility, collected := false }

inductive DeathType where
  | splash | crash
  deriving DecidableEq, Repr

/-- Death-effect record (particle list is rendering-only and out of the
simulation contract). -/
structure DeathEffect where
  x : ℚ
  y : ℚ
  type : DeathType
  frame : ℕ
  deriving DecidableEq, Repr

/-- The React component state of `useGameLogic` that the simulation core
reads and writes (`isDying` models `isDyingRef.current`). -/
structure GameState where
  level : ℕ
  continuesUsed : ℕ
  player : Player
  lanes : List Lane
  homeSpots : List HomeSpot
  isGameOver : Bool
  highestRow : ℤ
  powerUp : Option PowerUp
  isInvincible : Bool
  deathEffect : Option DeathEffect
  isDying : Bool

/-- `initializeLanes` (lines 290–301), lane list only; the power-up roll it
also performs is applied by the callers below. -/
def initializeLanes (level : ℕ) (rf : ℕ → LaneRand) : List Lane :=
  LANES_CONFIG.mapIdx fun i config =>
    { y := (config.y : ℚ) * TILE_SIZE, objects := createLaneObjects config level (rf i),
      type := config.type, speed := config.speed.getD 0,
      direction := config.direction.getD 1, objectType := config.objectType.getD "" }

def MAX_CONTINUES : ℕ := 3

/-- `continueGame` (lines 336–352). -/
def continueGame (s : GameState) : GameState :=
  if s.continuesUsed ≥ MAX_CONTINUES then s
  else
    { s with
      continuesUsed := s.continuesUsed + 1,
      player := { s.player with
        x := STARTING_X, y := STARTING_Y, lives := 3,
        targetX := STARTING_X, targetY := STARTING_Y, isMoving := false },
      highestRow := (START_ROW : ℤ), isGameOver := false, isInvincible := false }

/-- Synchronous part of `handleDeath` (lines 390–417): the single-flight /
invincibility guard, the death effect, and hiding the player off-screen. -/
def handleDeathTrigger (t : DeathType) (s : GameState) : GameState :=
  if s.isInvincible ∨ s.isDying then s
  else
    { s with
      isDying := true,
      deathEffect := some ⟨s.player.x, s.player.y, t, 0⟩,
      player := { s.player with
        x := -100, y := -100, targetX := -100, targetY := -100,
        isMoving := false } }

/-- The `setTimeout` body of `handleDeath` (lines 419–441): end the death
animation, then lose a life and respawn, or end the run. -/
def handleDeathTimeout (s : GameState) : GameState :=
  let s1 := { s with deathEffect := none, isDying := false }
  let newLives := s1.player.lives - 1
  let s2 :=
    if newLives ≤ 0 then
      { s1 with isGameOver := true, player := { s1.player with lives := 0 } }
    else
      { s1 with
        player := { s1.player with
          lives := newLives, x := STARTING_X, y := STARTING_Y,
          targetX := STARTING_X, targetY := STARTING_Y, isMoving := false } }
  { s2 with highestRow := (START_ROW : ℤ) }

inductive SwipeDirection where
  | up | down | left | right
  deriving DecidableEq, Repr

/-- The clamped `newX` of `movePlayer`'s `switch` (lines 500–517). -/
def moveTargetX (direction : Option SwipeDirection) (prev : Player) : ℚ :=
  match direction with
  | some .left => max 0 (prev.x - TILE_SIZE)
  | some .right => min (GAME_WIDTH - PLAYER_SIZE) (prev.x + TILE_SIZE)
  | _ => prev.x

/-- The clamped `newY` of `movePlayer`'s `switch` (lines 500–517). -/
def moveTargetY (direction : Option SwipeDirection) (prev : Player) : ℚ :=
  match direction with
  | some .up => max 0 (prev.y - TILE_SIZE)
  | some .down => min STARTING_Y (prev.y + TILE_SIZE)
  | _ => prev.y

/-- `movePlayer` (lines 497–540). -/
def movePlayer (direction : Option SwipeDirection) (s : GameState) : GameState :=
  if direction = none ∨ s.player.isMoving ∨ s.isGameOver then s
  else
    let prev := s.player
    let newX := moveTargetX direction prev
    let newY := moveTargetY direction prev
    if newX ≠ prev.x ∨ newY ≠ prev.y then
      let newRow : ℤ := ⌊newY / TILE_SIZE⌋
      let scoreBonus : ℤ :=
        if newRow < s.highestRow then POINTS_MOVE_FORWARD * (s.highestRow - newRow) else 0
      let highestRow' := if newRow < s.highestRow then newRow else s.highestRow
      { s with
        highestRow := highestRow',
        player := { prev with
          targetX := newX, targetY := newY, isMoving := true,
          score := prev.score + scoreBonus } }
    else s

/-- The `updated[spotIndex] = { ...spot, filled: true }` update inside
`checkHomeSpot` (lines 474–478). -/
def fillHomeSpot (i : ℕ) (hs : List HomeSpot) : List HomeSpot :=
  match hs.get? i with
  | some spot => hs.set i { spot with filled := true }
  | none => hs

/-- The all-homes-filled effect (lines 543–556): score bonus, level
increment, home-spot reset, highest-row reset, player reset, lane
regeneration (which also rolls a new power-up). -/
def checkAllHomesFilled (rf : ℕ → LaneRand) (u1 u2 u3 : ℚ) (s : GameState) : GameState :=
  if s.homeSpots.all (·.filled) then
    { s with
      player := { s.player with
        score := s.player.score + POINTS_ALL_HOMES_FILLED +
          POINTS_LEVEL_COMPLETE * (s.level : ℤ),
        x := STARTING_X, y := STARTING_Y, targetX := STARTING_X, targetY := STARTING_Y,
        isMoving := false },
      level := s.level + 1,
      homeSpots := HOME_SPOTS,
      highestRow := (START_ROW : ℤ),
      lanes := initializeLanes (s.level + 1) rf,
      powerUp := createPowerUp u1 u2 u3 }
  else s

/-! ## Frame loop (lines 559–780) -/

/-- `Math.sign`. -/
def jsSign (q : ℚ) : ℚ := if q > 0 then 1 else if q < 0 then -1 else 0

/-- Actor hop interpolation (lines 717–731). -/
def interpolateMove (p : Player) : Player :=
  let dx := p.targetX - p.x
  let dy := p.targetY - p.y
  let moveSpeed : ℚ := 8
  if |dx| < moveSpeed ∧ |dy| < moveSpeed then
    { p with x := p.targetX, y := p.targetY, isMoving := false }
  else
    { p with
      x := p.x + jsSign dx * min |dx| moveSpeed,
      y := p.y + jsSign dy * min |dy| moveSpeed }

/-- Progressive speed multiplier (lines 572–576). -/
def progressiveSpeedMultiplier (p : Player) : ℚ :=
  let playerRow : ℤ := ⌊p.y / TILE_SIZE⌋
  let progressToGoal : ℚ := max 0 (min 1 (((START_ROW : ℚ) - (playerRow : ℚ)) / (START_ROW : ℚ)))
  (0.27 + progressToGoal * 0.63) * 1.025 * 0.9

inductive WaterOutcome where
  | death
  | alive (p : Player)
  deriving DecidableEq, Repr

/-- Water support / carry step of the frame loop (lines 734–760): `death`
is the `handleDeath('splash')`-and-return path. -/
def waterStep (level : ℕ) (mult dt : ℚ) (lanes : List Lane) (p : Player) : WaterOutcome :=
  if p.isMoving then .alive p
  else
    let row : ℤ := ⌊p.y / TILE_SIZE⌋
    let cfg := if row < 0 then none else LANES_CONFIG.get? row.toNat
    match cfg with
    | some c =>
      if c.type = .water then
        match lanes.find? fun l => ⌊l.y / TILE_SIZE⌋ = row with
        | some lane =>
          let support := getWaterSupport p lane level
          if ¬ support.supported then .death
          else
            let carryDx := support.carrySpeed * (support.carryDir : ℚ) * mult * (dt / 16) * 0.5
            let carriedX := p.x + carryDx
            if carriedX < -PLAYER_SIZE ∨ carriedX > GAME_WIDTH then .death
            else .alive { p with x := carriedX, targetX := carriedX }
        | none => .alive p
      else .alive p
    | none => .alive p

structure FrameResult where
  state : GameState
  lastTime : ℚ
  scheduled : Bool

/-- One invocation of `gameLoop` (lines 562–774).  `rf li i` models the
surface-dwell draw for object `i` of lane `li`. -/
def gameLoopFrame (rf : ℕ → ℕ → ℚ) (timestamp lastTime : ℚ) (s : GameState) : FrameResult :=
  let deltaTime := timestamp - lastTime
  if deltaTime > 100 then ⟨s, timestamp, true⟩
  else
    let mult := progressiveSpeedMultiplier s.player
    let nextLanes := s.lanes.mapIdx fun li lane => updateLane s.level mult deltaTime (rf li) lane
    let currentPlayer := s.player
    let nextPlayer := if currentPlayer.isMoving then interpolateMove currentPlayer
                      else currentPlayer
    match waterStep s.level mult deltaTime nextLanes nextPlayer with
    | .death => ⟨handleDeathTrigger .splash { s with lanes := nextLanes }, timestamp, true⟩
    | .alive p2 => ⟨{ s with lanes := nextLanes, player := p2 }, timestamp, true⟩

/-! ## Specification-side predicates (for refinement comparison)

The specification describes the water support test as a test on the
actor's *horizontal extent* ("any overlap counts"); the next definition
follows those words so it can be compared with `getWaterSupport`, which
the source implements with a centre-point test. -/

/-- The water-support condition written from the specification's words:
the actor's horizontal extent `[x, x + PLAYER_SIZE)` overlaps the hazard's
extent `[obj.x, obj.x + width)` (any amount of overlap), and the hazard is
a valid support (a submersible only when not `submerged`, with the level-1
grace window). -/
def specExtentOverlapSupported (p : Player) (lane : Lane) (level : ℕ) : Bool :=
  lane.objects.any fun obj =>
    decide (obj.x < p.x + PLAYER_SIZE ∧ p.x < obj.x + obj.width) &&
    (!(obj.type == "turtle") || isTurtleSafeToStandOn obj level)

/-! ## Invariants and concrete states used by the theorems below -/

/-- Two hazards' horizontal intervals do not overlap. -/
def HDisjoint (a b : GameObject) : Prop :=
  a.x + a.width ≤ b.x ∨ b.x + b.width ≤ a.x

instance : DecidableRel HDisjoint := fun a b => by unfold HDisjoint; infer_instance

def zeroRand : LaneRand := ⟨fun _ => 0, fun _ => 0, 0, fun _ => 0, fun _ => 0⟩

def demoState : GameState :=
  { level := 1, continuesUsed := 0, player := initialPlayer, lanes := [],
    homeSpots := HOME_SPOTS, isGameOver := false, highestRow := (START_ROW : ℤ),
    powerUp := none, isInvincible := false, deathEffect := none, isDying := false }

def demoTurtle : GameObject :=
  { x := 0, y := 80, width := 100, height := 40, speed := 1, direction := 1,
    type := "turtle", isDiving := false, divePhase := some .surface,
    diveTimer := some 100, colorVariant := 0 }

/-- Actor overlapping a log by 6 px without centre containment. -/
def cexSupportPlayer : Player :=
  { x := 0, y := 42, lives := 3, score := 0, isMoving := false, targetX := 0, targetY := 42 }

def cexSupportLane : Lane :=
  { y := 40,
    objects := [{ x := 30, y := 40, width := 100, height := 40, speed := 0.8,
                  direction := -1, type := "log-medium", isDiving := false,
                  divePhase := none, diveTimer := none, colorVariant := 0 }],
    type := .water, speed := 0.8, direction := -1, objectType := "log" }

/-- A level-2 road lane whose hazards are pairwise disjoint: a parked truck
at `[300, 380]`, a motorcycle at `[275, 300]` touching it from behind, a
faster motorcycle at `[250, 275]`, and a truck at `[170, 250]`.  One frame
of movement makes the motorcycles catch the leading truck, and the ordering
pass's both-motorcycle exemption then skips the gap check between the two
motorcycles. -/
def cexRoadLane : Lane :=
  { y := 320,
    objects :=
      [ { x := 300, y := 320, width := 80, height := 36, speed := 0, direction := 1,
          type := "truck" },
        { x := 275, y := 320, width := 25, height := 36, speed := 5, direction := 1,
          type := "motorcycle" },
        { x := 250, y := 320, width := 25, height := 36, speed := 27, direction := 1,
          type := "motorcycle" },
        { x := 170, y := 320, width := 80, height := 36, speed := 4, direction := 1,
          type := "truck" } ],
    type := .road, speed := 1, direction := 1, objectType := "car" }

/-- A level-2 water lane with two disjoint logs, used to instantiate the
water-lane preservation part of the separation theorem.  As in the real
game at level 2, the objects carry the level-multiplied speed
`1 * (1 + (2 - 1) * 0.12) = 1.12`, which differs from the lane's
configured base speed. -/
def c2Lane : Lane :=
  { y := 80,
    objects :=
      [ { x := 0, y := 80, width := 100, height := 40, speed := 1.12, direction := 1,
          type := "log-long" },
        { x := 150, y := 80, width := 100, height := 40, speed := 1.12, direction := 1,
          type := "log-long" } ],
    type := .water, speed := 1, direction := 1, objectType := "log" }

/-- A tagged road object for instantiating the ordering-pass chain
property. -/
def c2Pair : ℕ × GameObject :=
  (0, { x := 100, y := 320, width := 80, height := 36, speed := 1, direction := 1,
        type := "truck" })

/-- A second tagged road object behind `c2Pair`, so the chain instances of
the witness run the pass on a nonempty tail. -/
def c2Pair2 : ℕ × GameObject :=
  (1, { x := 0, y := 320, width := 25, height := 36, speed := 1, direction := 1,
        type := "motorcycle" })

/-- A stationary actor on water row 1 after the opening hop (score 10). -/
def c4WaterPlayer : Player :=
  { x := 162, y := 42, lives := 3, score := 10, isMoving := false,
    targetX := 162, targetY := 42 }

def c4OnWaterState : GameState := { demoState with player := c4WaterPlayer }

/-- A water lane (row 1) holding no hazards at all. -/
def c4EmptyLane : Lane :=
  { y := 40, objects := [], type := .water, speed := 0.8, direction := -1, objectType := "log" }

/-- Four of the five home spots filled; spot 4 is the last one left. -/
def c6State : GameState :=
  { demoState with
    homeSpots := [⟨20, true⟩, ⟨90, true⟩, ⟨160, true⟩, ⟨230, true⟩, ⟨300, false⟩] }

/-- The state during the death-animation window: the player is hidden at
`(-100, -100)` and `isMoving` is `false`, so `movePlayer` accepts hops. -/
def hiddenPlayerState : GameState :=
  { demoState with
    player := { x := -100, y := -100, lives := 3, score := 0, isMoving := false,
                targetX := -100, targetY := -100 } }

end TadpoleDash

namespace TadpoleDash

/-! # Theorems -/

/-- **C3.** For every submersible (turtle) hazard and every frame update,
the dive phase advances by at most one step per frame recomputation pass —
even when the elapsed time `dt` far exceeds the remaining phase time — and
when it advances it moves to the successor in the fixed cyclic order
`surface → diving → submerged → rising → surface` (`DIVE_PHASES.next`),
never skipping or reversing; the timer is reloaded with the next phase's
configured duration, with random extra dwell (`u * 2000`) added only on
re-entering `surface`. -/
theorem divePhase_one_step_per_pass (mult dt u : ℚ) (obj : GameObject) (t : ℚ) (p : DivePhase)
    (htype : obj.type = "turtle") (ht : obj.diveTimer = some t) (hp : obj.divePhase = some p) :
    (0 < t - dt →
      (moveObj mult dt u obj).1.divePhase = some p ∧
      (moveObj mult dt u obj).1.diveTimer = some (t - dt)) ∧
    (t - dt ≤ 0 →
      (moveObj mult dt u obj).1.divePhase = some (DIVE_PHASES.next p) ∧
      (moveObj mult dt u obj).1.diveTimer = some (DIVE_PHASES.duration (DIVE_PHASES.next p) +
        (if DIVE_PHASES.next p = DivePhase.surface then u * 2000 else 0))) := by
  constructor
  · intro hpos
    have hne : ¬ (t - dt ≤ 0) := by linarith
    simp [moveObj, ht, hp, htype, hne]
  · intro hneg
    simp [moveObj, ht, hp, htype, hneg]

/-- Witness for C3: a turtle 100 ms from the end of `surface`, hit with a
10 000 ms frame, advances exactly one phase (to `diving`, timer 800). -/
theorem divePhase_one_step_per_pass_witness :
    (moveObj 1 10000 0 demoTurtle).1.divePhase = some DivePhase.diving ∧
    (moveObj 1 10000 0 demoTurtle).1.diveTimer = some 800 := by
  have h := (divePhase_one_step_per_pass 1 10000 0 demoTurtle 100 .surface rfl rfl rfl).2
    (by norm_num)
  simpa using h

/-- **C5.** Whenever the invincibility flag is set, a death trigger of
either kind is suppressed entirely: the state (lives, death effect,
player position, everything) is unchanged, so no death animation starts
and no life is lost.  This holds at every frame in which the flag is set. -/
theorem invincible_death_noop (t : DeathType) (s : GameState) (h : s.isInvincible = true) :
    handleDeathTrigger t s = s := by
  unfold handleDeathTrigger
  simp [h]

/-- Witness for C5 at a concrete invincible state. -/
theorem invincible_death_noop_witness :
    handleDeathTrigger .crash { demoState with isInvincible := true } =
      { demoState with isInvincible := true } :=
  invincible_death_noop .crash _ rfl

/-- **C7.** `continueGame` below the continue cap resets lives to the
fresh-run value 3 and the position/target to the starting tile, clears the
game-over and invincibility flags, keeps the score, and increments the
continues-used counter; at or above the cap it is a complete no-op. -/
theorem continueGame_spec (s : GameState) :
    (s.continuesUsed < MAX_CONTINUES →
      (continueGame s).continuesUsed = s.continuesUsed + 1 ∧
      (continueGame s).player.lives = 3 ∧
      (continueGame s).player.x = STARTING_X ∧
      (continueGame s).player.y = STARTING_Y ∧
      (continueGame s).player.targetX = STARTING_X ∧
      (continueGame s).player.targetY = STARTING_Y ∧
      (continueGame s).player.isMoving = false ∧
      (continueGame s).isGameOver = false ∧
      (continueGame s).isInvincible = false ∧
      (continueGame s).player.score = s.player.score) ∧
    (MAX_CONTINUES ≤ s.continuesUsed → continueGame s = s) := by
  unfold continueGame
  constructor
  · intro h
    rw [if_neg (by omega)]
    exact ⟨rfl, rfl, rfl, rfl, rfl, rfl, rfl, rfl, rfl, rfl⟩
  · intro h
    rw [if_pos h]

/-- Witness for C7: a fresh state continues once (score kept), and a state
with all three continues used refuses. -/
theorem continueGame_spec_witness :
    (continueGame demoState).continuesUsed = 1 ∧
    (continueGame demoState).player.score = 0 ∧
    continueGame { demoState with continuesUsed := 3 } =
      { demoState with continuesUsed := 3 } := by
  have h1 := (continueGame_spec demoState).1 (by norm_num [demoState, MAX_CONTINUES])
  have h2 := (continueGame_spec { demoState with continuesUsed := 3 }).2
    (by norm_num [MAX_CONTINUES])
  exact ⟨h1.1, h1.2.2.2.2.2.2.2.2.2, h2⟩

/-- **C8.** While a death is being processed (`isDying` set by a first
trigger), any further death trigger of either kind is a complete no-op,
and the animation-end timeout takes exactly one life. -/
theorem death_single_flight (t : DeathType) (s : GameState)
    (hd : s.isDying = false) (hi : s.isInvincible = false) (hl : 1 ≤ s.player.lives) :
    (handleDeathTrigger t s).isDying = true ∧
    (∀ t' s', s'.isDying = true → handleDeathTrigger t' s' = s') ∧
    (handleDeathTimeout (handleDeathTrigger t s)).player.lives = s.player.lives - 1 ∧
    (handleDeathTimeout (handleDeathTrigger t s)).isDying = false := by
  refine ⟨?_, ?_, ?_, ?_⟩
  · unfold handleDeathTrigger
    simp [hd, hi]
  · intro t' s' h'
    unfold handleDeathTrigger
    simp [h']
  · unfold handleDeathTrigger handleDeathTimeout
    rw [if_neg (by simp [hd, hi])]
    dsimp only
    split_ifs with h2
    · dsimp only
      omega
    · rfl
  · unfold handleDeathTrigger handleDeathTimeout
    rw [if_neg (by simp [hd, hi])]
    dsimp only
    split_ifs <;> rfl

/-- Witness for C8: from the fresh state, a second splash trigger during the
death window changes nothing, and the timeout leaves 2 lives. -/
theorem death_single_flight_witness :
    handleDeathTrigger .splash (handleDeathTrigger .splash demoState) =
      handleDeathTrigger .splash demoState ∧
    (handleDeathTimeout (handleDeathTrigger .splash demoState)).player.lives = 2 := by
  have h := death_single_flight .splash demoState rfl rfl (by norm_num [demoState, initialPlayer])
  exact ⟨h.2.1 .splash _ h.1, by rw [h.2.2.1]; norm_num [demoState, initialPlayer]⟩

/-- **C9.** On a frame whose elapsed time exceeds the 100 ms sanity
threshold, the entire position update is skipped — the resulting state
(every hazard `x`, dive phase and timer, and every actor field) is exactly
the input state — while the next frame is still scheduled. -/
theorem frame_skip_on_stall (rf : ℕ → ℕ → ℚ) (timestamp lastTime : ℚ) (s : GameState)
    (h : 100 < timestamp - lastTime) :
    (gameLoopFrame rf timestamp lastTime s).state = s ∧
    (gameLoopFrame rf timestamp lastTime s).scheduled = true ∧
    (gameLoopFrame rf timestamp lastTime s).lastTime = timestamp := by
  unfold gameLoopFrame
  rw [if_pos h]
  exact ⟨rfl, rfl, rfl⟩

/-- Witness for C9 on a 101 ms frame. -/
theorem frame_skip_on_stall_witness :
    (gameLoopFrame (fun _ _ => 0) 101 0 demoState).state = demoState ∧
    (gameLoopFrame (fun _ _ => 0) 101 0 demoState).scheduled = true :=
  ⟨(frame_skip_on_stall (fun _ _ => 0) 101 0 demoState (by norm_num)).1,
   (frame_skip_on_stall (fun _ _ => 0) 101 0 demoState (by norm_num)).2.1⟩

/-! Helper evaluations of the derived board constants. -/

theorem START_ROW_eq : START_ROW = 14 := by decide

theorem STARTING_Y_eq : STARTING_Y = 562 := by
  rw [STARTING_Y, START_ROW_eq]; norm_num [TILE_SIZE]

theorem STARTING_X_eq : STARTING_X = 162 := by
  norm_num [STARTING_X, GAME_WIDTH, PLAYER_SIZE]

/-- **C10 (counterexample).** During the death-animation window the player
sits at `(-100, -100)` with `isMoving = false`, and `movePlayer` accepts an
`up` hop from that state: the committed target has `targetX = -100`, outside
`[0, GAME_WIDTH - PLAYER_SIZE]`, so the claim's clamp bound fails. -/
theorem movePlayer_clamp_counterexample :
    (movePlayer (some .up) hiddenPlayerState).player.isMoving = true ∧
    (movePlayer (some .up) hiddenPlayerState).player.targetX = -100 ∧
    ¬ (0 ≤ (movePlayer (some .up) hiddenPlayerState).player.targetX) := by
  simp only [movePlayer, moveTargetX, moveTargetY, hiddenPlayerState, demoState, initialPlayer]
  rw [if_neg (show ¬ ((some SwipeDirection.up : Option SwipeDirection) = none ∨
    false = true ∨ false = true) by simp)]
  rw [if_pos (show (-100 : ℚ) ≠ -100 ∨ (0 : ℚ) ⊔ (-100 - TILE_SIZE) ≠ -100 by
    right; norm_num [TILE_SIZE])]
  exact ⟨rfl, rfl, by norm_num⟩

/-- **C10 (amended).** For every direction event accepted by `movePlayer`
from an actor whose current position lies within the board box (which
excludes only the hidden death-animation position), the committed hop
target is clamped to the board: target `x` stays in
`[0, GAME_WIDTH - PLAYER_SIZE]` and target `y` in `[0, STARTING_Y]`; and
when the clamped target equals the current position (a move against a
board edge), the call leaves the entire state unchanged — no hop starts
and no forward-progress score is added. -/
theorem movePlayer_clamp (dir : SwipeDirection) (s : GameState)
    (hm : s.player.isMoving = false) (hg : s.isGameOver = false)
    (hx0 : 0 ≤ s.player.x) (hx1 : s.player.x ≤ GAME_WIDTH - PLAYER_SIZE)
    (hy0 : 0 ≤ s.player.y) (hy1 : s.player.y ≤ STARTING_Y)
    (htx : s.player.targetX = s.player.x) (hty : s.player.targetY = s.player.y) :
    (0 ≤ (movePlayer (some dir) s).player.targetX ∧
     (movePlayer (some dir) s).player.targetX ≤ GAME_WIDTH - PLAYER_SIZE ∧
     0 ≤ (movePlayer (some dir) s).player.targetY ∧
     (movePlayer (some dir) s).player.targetY ≤ STARTING_Y) ∧
    (moveTargetX (some dir) s.player = s.player.x ∧
       moveTargetY (some dir) s.player = s.player.y →
      movePlayer (some dir) s = s) := by
  have hT : TILE_SIZE = (40 : ℚ) := rfl
  have hGP : GAME_WIDTH - PLAYER_SIZE = (324 : ℚ) := by norm_num [GAME_WIDTH, PLAYER_SIZE]
  have hSY : STARTING_Y = (562 : ℚ) := STARTING_Y_eq
  have hX0 : 0 ≤ moveTargetX (some dir) s.player := by
    cases dir
    · exact hx0
    · exact hx0
    · exact le_max_left 0 _
    · exact le_min (by rw [hGP]; norm_num) (by linarith)
  have hX1 : moveTargetX (some dir) s.player ≤ GAME_WIDTH - PLAYER_SIZE := by
    cases dir
    · exact hx1
    · exact hx1
    · exact max_le (by rw [hGP]; norm_num) (by linarith)
    · exact min_le_left _ _
  have hY0 : 0 ≤ moveTargetY (some dir) s.player := by
    cases dir
    · exact le_max_left 0 _
    · exact le_min (by rw [hSY]; norm_num) (by linarith)
    · exact hy0
    · exact hy0
  have hY1 : moveTargetY (some dir) s.player ≤ STARTING_Y := by
    cases dir
    · exact max_le (by rw [hSY]; norm_num) (by linarith)
    · exact min_le_left _ _
    · exact hy1
    · exact hy1
  unfold movePlayer
  rw [if_neg (by simp [hm, hg])]
  by_cases hcond : moveTargetX (some dir) s.player ≠ s.player.x ∨
      moveTargetY (some dir) s.player ≠ s.player.y
  · rw [if_pos hcond]
    refine ⟨⟨hX0, hX1, hY0, hY1⟩, ?_⟩
    intro hEq
    rcases hcond with h | h
    · exact absurd hEq.1 h
    · exact absurd hEq.2 h
  · rw [if_neg hcond]
    push_neg at hcond
    refine ⟨⟨?_, ?_, ?_, ?_⟩, fun _ => rfl⟩
    · rw [htx]; exact hx0
    · rw [htx]; exact hx1
    · rw [hty]; exact hy0
    · rw [hty]; exact hy1

/-- Witness for the amended C10 at the fresh state, direction `up`. -/
theorem movePlayer_clamp_witness :
    0 ≤ (movePlayer (some .up) demoState).player.targetY ∧
    (movePlayer (some .up) demoState).player.targetY ≤ STARTING_Y ∧
    0 ≤ (movePlayer (some .up) demoState).player.targetX := by
  have h := movePlayer_clamp .up demoState rfl rfl
    (by norm_num [demoState, initialPlayer, STARTING_X, GAME_WIDTH, PLAYER_SIZE])
    (by norm_num [demoState, initialPlayer, STARTING_X, GAME_WIDTH, PLAYER_SIZE])
    (by norm_num [demoState, initialPlayer, STARTING_Y, START_ROW_eq, TILE_SIZE])
    (by norm_num [demoState, initialPlayer, STARTING_Y, START_ROW_eq, TILE_SIZE])
    rfl rfl
  exact ⟨h.1.2.2.1, h.1.2.2.2, h.1.1⟩

/-! Helper floor evaluations used by the water-lane examples. -/

theorem floor_42_div_tile : ⌊(42 : ℚ) / TILE_SIZE⌋ = 1 := by norm_num [TILE_SIZE]

theorem floor_40_div_tile : ⌊(40 : ℚ) / TILE_SIZE⌋ = 1 := by norm_num [TILE_SIZE]

/-- The `for` loop of `getWaterSupport` reports support exactly when the
*first* object whose inset extent `[x+2, x+width-2]` contains the frog's
centre exists and is a valid support (not an unsafe turtle). -/
theorem getWaterSupportAux_supported_iff (c : ℚ) (level : ℕ) (objs : List GameObject) :
    (getWaterSupportAux c level objs).supported = true ↔
      ∃ o, objs.find? (fun o => decide (c ≥ o.x + 2 ∧ c ≤ o.x + o.width - 2)) = some o ∧
        (o.type = "turtle" → isTurtleSafeToStandOn o level = true) := by
  induction objs with
  | nil => simp [getWaterSupportAux]
  | cons a rest ih =>
    by_cases hc : c ≥ a.x + 2 ∧ c ≤ a.x + a.width - 2
    · rw [List.find?_cons_of_pos _ (by exact decide_eq_true hc)]
      unfold getWaterSupportAux
      rw [if_pos hc]
      by_cases ht : a.type = "turtle" ∧ ¬ (isTurtleSafeToStandOn a level = true)
      · rw [if_pos ht]
        constructor
        · intro hfalse
          exact absurd hfalse (by simp)
        · rintro ⟨o, ho, hvalid⟩
          injection ho with ho
          subst ho
          exact absurd (hvalid ht.1) ht.2
      · rw [if_neg ht]
        push_neg at ht
        constructor
        · intro _
          exact ⟨a, rfl, ht⟩
        · intro _
          rfl
    · rw [List.find?_cons_of_neg _ (by simpa using hc)]
      unfold getWaterSupportAux
      rw [if_neg hc]
      exact ih

/-- **C1 (amended).** For a stationary actor on a water-lane row whose lane
is found: the actor counts as supported if and only if the *first* hazard
whose inset extent `[x+2, x+width−2]` contains the actor's centre point
exists and is a valid support (a turtle is valid exactly when
`isTurtleSafeToStandOn`, i.e. not `submerged` except in the level-1 200 ms
grace window at either end of `submerged`) — centre-point containment, not
extent overlap; an unsupported actor dies by the water-death outcome that
frame, and a supported one survives that frame unless the platform carry
pushes it off the board horizontally, in which case it also dies by the
water-death outcome. -/
theorem water_support_death (level : ℕ) (mult dt : ℚ) (lanes : List Lane) (p : Player)
    (lane : Lane) (c : LaneConfig)
    (hmov : p.isMoving = false)
    (hrow : 0 ≤ ⌊p.y / TILE_SIZE⌋)
    (hcfg : LANES_CONFIG[(⌊p.y / TILE_SIZE⌋).toNat]? = some c)
    (hwater : c.type = .water)
    (hlane : lanes.find? (fun l => ⌊l.y / TILE_SIZE⌋ = ⌊p.y / TILE_SIZE⌋) = some lane) :
    ((getWaterSupport p lane level).supported = true ↔
      ∃ o, lane.objects.find? (fun o => decide (p.x + PLAYER_SIZE / 2 ≥ o.x + 2 ∧
          p.x + PLAYER_SIZE / 2 ≤ o.x + o.width - 2)) = some o ∧
        (o.type = "turtle" → isTurtleSafeToStandOn o level = true)) ∧
    ((getWaterSupport p lane level).supported = false →
      waterStep level mult dt lanes p = .death) ∧
    (∀ sup, sup = getWaterSupport p lane level → sup.supported = true →
      (p.x + sup.carrySpeed * (sup.carryDir : ℚ) * mult * (dt / 16) * 0.5 < -PLAYER_SIZE ∨
          p.x + sup.carrySpeed * (sup.carryDir : ℚ) * mult * (dt / 16) * 0.5 > GAME_WIDTH →
        waterStep level mult dt lanes p = .death) ∧
      (¬ (p.x + sup.carrySpeed * (sup.carryDir : ℚ) * mult * (dt / 16) * 0.5 < -PLAYER_SIZE ∨
            p.x + sup.carrySpeed * (sup.carryDir : ℚ) * mult * (dt / 16) * 0.5 > GAME_WIDTH) →
        waterStep level mult dt lanes p = .alive
          { p with x := p.x + sup.carrySpeed * (sup.carryDir : ℚ) * mult * (dt / 16) * 0.5,
                   targetX := p.x + sup.carrySpeed * (sup.carryDir : ℚ) * mult * (dt / 16) * 0.5 })) := by
  have hrow' : ¬ (⌊p.y / TILE_SIZE⌋ < 0) := not_lt.mpr hrow
  refine ⟨getWaterSupportAux_supported_iff _ _ _, ?_, ?_⟩
  · intro hsup
    simp [waterStep, hmov, hrow', hcfg, hwater, hlane, hsup]
  · intro sup hsupEq hsup
    subst hsupEq
    constructor
    · intro hoff
      simp [waterStep, hmov, hrow', hcfg, hwater, hlane, hsup, hoff]
    · intro hon
      simp [waterStep, hmov, hrow', hcfg, hwater, hlane, hsup, hon]

/-- **C1 (counterexample).** An actor at `x = 0` overlaps a log spanning
`[30, 130]` by 6 px (the spec's extent-overlap test says: supported), but
its centre `x = 18` is left of the inset extent `[32, 128]`, so the code
reports no support and the water step kills the actor that frame. -/
theorem water_support_overlap_counterexample :
    specExtentOverlapSupported cexSupportPlayer cexSupportLane 1 = true ∧
    (getWaterSupport cexSupportPlayer cexSupportLane 1).supported = false ∧
    waterStep 1 1 16 [cexSupportLane] cexSupportPlayer = .death := by
  refine ⟨?_, ?_, ?_⟩
  · norm_num [specExtentOverlapSupported, cexSupportPlayer, cexSupportLane, PLAYER_SIZE]
    exact Or.inl (by decide)
  · norm_num [getWaterSupport, getWaterSupportAux, cexSupportPlayer, cexSupportLane, PLAYER_SIZE]
  · norm_num [waterStep, cexSupportPlayer, cexSupportLane, TILE_SIZE, LANES_CONFIG,
      List.find?, getWaterSupport, getWaterSupportAux, PLAYER_SIZE]

/-- Witness for the amended C1: a stationary actor on an empty water lane
is unsupported and dies by the water-death outcome that frame. -/
theorem water_support_death_witness :
    waterStep 1 1 16 [c4EmptyLane] c4WaterPlayer = .death := by
  have h := water_support_death 1 1 16 [c4EmptyLane] c4WaterPlayer c4EmptyLane
    ⟨.water, 1, some 0.8, some (-1), some "log"⟩ rfl
    (by simp [c4WaterPlayer, floor_42_div_tile])
    (by simp [c4WaterPlayer, floor_42_div_tile, LANES_CONFIG])
    rfl
    (by simp [c4EmptyLane, c4WaterPlayer, floor_42_div_tile, floor_40_div_tile, List.find?])
  exact h.2.1 (by simp [getWaterSupport, getWaterSupportAux, c4EmptyLane])

/-- **C4 (counterexample).** From the fresh state, the single `up` move
immediately awards the 10-point forward-progress bonus (so the score is 10,
not 0), the landing row 13 is a road lane (not a water lane), and the
death-resolution pipeline never changes the score. -/
theorem c4_scenario_counterexample :
    (movePlayer (some .up) demoState).player.score = 10 ∧
    (movePlayer (some .up) demoState).player.targetY = 522 ∧
    (LANES_CONFIG.get? 13).map (·.type) = some .road ∧
    (handleDeathTimeout (handleDeathTrigger .splash c4OnWaterState)).player.score = 10 := by
  refine ⟨?_, ?_, by simp [LANES_CONFIG], ?_⟩
  · simp only [movePlayer, moveTargetX, moveTargetY, demoState, initialPlayer]
    rw [if_neg (show ¬ ((some SwipeDirection.up : Option SwipeDirection) = none ∨
      false = true ∨ false = true) by simp)]
    rw [if_pos (show STARTING_X ≠ STARTING_X ∨ (0 : ℚ) ⊔ (STARTING_Y - TILE_SIZE) ≠ STARTING_Y by
      right; rw [STARTING_Y_eq]; norm_num [TILE_SIZE])]
    norm_num [STARTING_Y_eq, TILE_SIZE, START_ROW_eq, POINTS_MOVE_FORWARD]
  · simp only [movePlayer, moveTargetX, moveTargetY, demoState, initialPlayer]
    rw [if_neg (show ¬ ((some SwipeDirection.up : Option SwipeDirection) = none ∨
      false = true ∨ false = true) by simp)]
    rw [if_pos (show STARTING_X ≠ STARTING_X ∨ (0 : ℚ) ⊔ (STARTING_Y - TILE_SIZE) ≠ STARTING_Y by
      right; rw [STARTING_Y_eq]; norm_num [TILE_SIZE])]
    norm_num [STARTING_Y_eq, TILE_SIZE]
  · norm_num [handleDeathTrigger, handleDeathTimeout, c4OnWaterState, demoState, c4WaterPlayer]

/-- **C4 (amended).** From the fresh state (lives 3, score 0), the single
`up` move awards the 10-point forward bonus; a stationary actor with that
score on a water lane with no hazard under it dies by the water-death
outcome that frame, and completing the death leaves lives 2, the actor at
the starting tile, and the score unchanged by the death (still 10). -/
theorem c4_scenario_amended :
    (movePlayer (some .up) demoState).player.score = 10 ∧
    (movePlayer (some .up) demoState).player.lives = 3 ∧
    waterStep 1 1 16 [c4EmptyLane] c4WaterPlayer = .death ∧
    (handleDeathTimeout (handleDeathTrigger .splash c4OnWaterState)).player.lives = 2 ∧
    (handleDeathTimeout (handleDeathTrigger .splash c4OnWaterState)).player.x = STARTING_X ∧
    (handleDeathTimeout (handleDeathTrigger .splash c4OnWaterState)).player.y = STARTING_Y ∧
    (handleDeathTimeout (handleDeathTrigger .splash c4OnWaterState)).player.score = 10 := by
  refine ⟨?_, ?_, ?_, ?_⟩
  · simp only [movePlayer, moveTargetX, moveTargetY, demoState, initialPlayer]
    rw [if_neg (show ¬ ((some SwipeDirection.up : Option SwipeDirection) = none ∨
      false = true ∨ false = true) by simp)]
    rw [if_pos (show STARTING_X ≠ STARTING_X ∨ (0 : ℚ) ⊔ (STARTING_Y - TILE_SIZE) ≠ STARTING_Y by
      right; rw [STARTING_Y_eq]; norm_num [TILE_SIZE])]
    norm_num [STARTING_Y_eq, TILE_SIZE, START_ROW_eq, POINTS_MOVE_FORWARD]
  · simp only [movePlayer, moveTargetX, moveTargetY, demoState, initialPlayer]
    rw [if_neg (show ¬ ((some SwipeDirection.up : Option SwipeDirection) = none ∨
      false = true ∨ false = true) by simp)]
    rw [if_pos (show STARTING_X ≠ STARTING_X ∨ (0 : ℚ) ⊔ (STARTING_Y - TILE_SIZE) ≠ STARTING_Y by
      right; rw [STARTING_Y_eq]; norm_num [TILE_SIZE])]
  · norm_num [waterStep, c4WaterPlayer, c4EmptyLane, TILE_SIZE, LANES_CONFIG,
      List.find?, getWaterSupport, getWaterSupportAux, PLAYER_SIZE]
  · refine ⟨?_, ?_, ?_, ?_⟩ <;>
      norm_num [handleDeathTrigger, handleDeathTimeout, c4OnWaterState, demoState, c4WaterPlayer]

/-- **C6.** Filling the last remaining Home Spot (whatever index it is, in
any order of prior fills) triggers in one pass: the all-homes bonus plus
the completion bonus scaled by the completed level added to the score, the
level counter incremented, all five Home Spots reset to unfilled, the
actor reset to the starting tile, and all lanes' hazards regenerated for
the new level (with a fresh power-up roll). -/
theorem level_complete_effect (s : GameState) (i : ℕ) (rf : ℕ → LaneRand) (u1 u2 u3 : ℚ)
    (hfill : ((fillHomeSpot i s.homeSpots).all (·.filled)) = true) :
    (checkAllHomesFilled rf u1 u2 u3 { s with homeSpots := fillHomeSpot i s.homeSpots }).player.score
        = s.player.score + POINTS_ALL_HOMES_FILLED + POINTS_LEVEL_COMPLETE * (s.level : ℤ) ∧
    (checkAllHomesFilled rf u1 u2 u3 { s with homeSpots := fillHomeSpot i s.homeSpots }).level
        = s.level + 1 ∧
    (checkAllHomesFilled rf u1 u2 u3 { s with homeSpots := fillHomeSpot i s.homeSpots }).homeSpots
        = HOME_SPOTS ∧
    (HOME_SPOTS.all fun h => !h.filled) = true ∧
    (checkAllHomesFilled rf u1 u2 u3 { s with homeSpots := fillHomeSpot i s.homeSpots }).player.x
        = STARTING_X ∧
    (checkAllHomesFilled rf u1 u2 u3 { s with homeSpots := fillHomeSpot i s.homeSpots }).player.y
        = STARTING_Y ∧
    (checkAllHomesFilled rf u1 u2 u3 { s with homeSpots := fillHomeSpot i s.homeSpots }).player.isMoving
        = false ∧
    (checkAllHomesFilled rf u1 u2 u3 { s with homeSpots := fillHomeSpot i s.homeSpots }).lanes
        = initializeLanes (s.level + 1) rf := by
  unfold checkAllHomesFilled
  rw [if_pos (by simpa using hfill)]
  exact ⟨rfl, rfl, rfl, by decide, rfl, rfl, rfl, rfl⟩

/-- Witness for C6: with spots 0–3 already filled, filling spot 4 bumps the
level to 2 and resets the Home Spots. -/
theorem level_complete_effect_witness :
    (checkAllHomesFilled (fun _ => zeroRand) 1 0 0
        { c6State with homeSpots := fillHomeSpot 4 c6State.homeSpots }).level = 2 ∧
    (checkAllHomesFilled (fun _ => zeroRand) 1 0 0
        { c6State with homeSpots := fillHomeSpot 4 c6State.homeSpots }).homeSpots = HOME_SPOTS := by
  have h := level_complete_effect c6State 4 (fun _ => zeroRand) 1 0 0 (by decide)
  exact ⟨by rw [h.2.1]; rfl, h.2.2.1⟩

/-! ## Hazard non-overlap (C2): helper lemmas -/

theorem OBJECT_WIDTHS_getD_nonneg (s : String) (d : ℚ) (hd : 0 ≤ d) :
    0 ≤ (OBJECT_WIDTHS s).getD d := by
  unfold OBJECT_WIDTHS
  split <;> first | exact hd | norm_num

theorem foldr_min_le_mem (b : ℚ) : ∀ (xs : List ℚ), ∀ a ∈ xs, xs.foldr min b ≤ a := by
  intro xs
  induction xs with
  | nil => simp
  | cons x rest ih =>
    intro a ha
    rcases List.mem_cons.mp ha with h | h
    · subst h; exact min_le_left _ _
    · exact le_trans (min_le_right _ _) (ih a h)

theorem le_foldr_max_mem (b : ℚ) : ∀ (xs : List ℚ), ∀ a ∈ xs, a ≤ xs.foldr max b := by
  intro xs
  induction xs with
  | nil => simp
  | cons x rest ih =>
    intro a ha
    rcases List.mem_cons.mp ha with h | h
    · subst h; exact le_max_left _ _
    · exact le_trans (ih a h) (le_max_right _ _)

/-- The first pass moves each object by `speed × direction × mult × dt/16`
and leaves its width and type unchanged (the dive branch touches only the
dive fields). -/
theorem moveObj_x (mult dt u : ℚ) (o : GameObject) :
    (moveObj mult dt u o).1.x = o.x + o.speed * (o.direction : ℚ) * mult * (dt / 16) ∧
    (moveObj mult dt u o).1.width = o.width ∧
    (moveObj mult dt u o).1.type = o.type := by
  unfold moveObj
  rcases o.diveTimer with _ | t <;> rcases o.divePhase with _ | p <;>
    simp <;> split_ifs <;> simp

theorem movePass_mem (mult dt : ℚ) (u : ℕ → ℚ) :
    ∀ (objs : List GameObject) (i : ℕ), ∀ mb ∈ movePass mult dt u i objs,
      ∃ o' ∈ objs, ∃ j, mb = moveObj mult dt (u j) o' := by
  intro objs
  induction objs with
  | nil => intro i mb h; simp [movePass] at h
  | cons o rest ih =>
    intro i mb h
    rw [movePass] at h
    rcases List.mem_cons.mp h with h | h
    · exact ⟨o, List.mem_cons_self o rest, i, h⟩
    · obtain ⟨o', ho', j, hj⟩ := ih (i + 1) mb h
      exact ⟨o', List.mem_cons_of_mem o ho', j, hj⟩

/-- Uniform translation of a lane whose objects share a speed and a
direction preserves interval disjointness. -/
theorem movePass_pairwise (mult dt : ℚ) (u : ℕ → ℚ) (s : ℚ) (d : ℤ) :
    ∀ (objs : List GameObject) (i : ℕ),
      (∀ o ∈ objs, o.speed = s ∧ o.direction = d) →
      objs.Pairwise HDisjoint →
      ((movePass mult dt u i objs).map (·.1)).Pairwise HDisjoint := by
  intro objs
  induction objs with
  | nil => intro i _ _; simp [movePass]
  | cons o rest ih =>
    intro i hsd hpair
    rw [movePass]
    simp only [List.map_cons]
    rw [List.pairwise_cons] at hpair ⊢
    constructor
    · intro b hb
      simp only [List.mem_map] at hb
      obtain ⟨mb, hmb, rfl⟩ := hb
      obtain ⟨o', ho', j, rfl⟩ := movePass_mem mult dt u rest (i + 1) mb hmb
      have h1 := moveObj_x mult dt (u i) o
      have h2 := moveObj_x mult dt (u j) o'
      have hso := (hsd o (List.mem_cons_self o rest))
      have hso' := (hsd o' (List.mem_cons_of_mem o ho'))
      have hd := hpair.1 o' ho'
      unfold HDisjoint at hd ⊢
      rw [h1.1, h1.2.1, h2.1, h2.2.1, hso.1, hso.2, hso'.1, hso'.2]
      rcases hd with h | h
      · exact Or.inl (by linarith)
      · exact Or.inr (by linarith)
    · exact ih (i + 1) (fun o' ho' => hsd o' (List.mem_cons_of_mem o ho')) hpair.2

/-- Every object coming out of the first pass keeps its width. -/
theorem movePass_width (mult dt : ℚ) (u : ℕ → ℚ) (objs : List GameObject) (i : ℕ)
    (hw : ∀ o ∈ objs, 0 ≤ o.width) :
    ∀ mb ∈ movePass mult dt u i objs, 0 ≤ mb.1.width := by
  intro mb hmb
  obtain ⟨o', ho', j, rfl⟩ := movePass_mem mult dt u objs i mb hmb
  rw [(moveObj_x mult dt (u j) o').2.1]
  exact hw o' ho'

/-- Wrap re-insertion, rightward lanes: non-wrapped entries pass through
unchanged, and every re-inserted wrapped entry ends below the running
insertion cursor. -/
theorem reinsertRight_mem (baseGap : ℚ) (hgap : 0 ≤ baseGap) :
    ∀ (l : List (GameObject × Bool)) (ix : ℚ),
      (∀ m ∈ l, 0 ≤ m.1.width) →
      ∀ mb ∈ reinsertRight baseGap ix l,
        (mb.2 = false → mb ∈ l) ∧ (mb.2 = true → mb.1.x + mb.1.width ≤ ix) := by
  intro l
  induction l with
  | nil => intro ix _ mb h; simp [reinsertRight] at h
  | cons m rest ih =>
    intro ix hw mb hmb
    obtain ⟨obj, w⟩ := m
    rw [reinsertRight] at hmb
    have hwrest : ∀ m ∈ rest, 0 ≤ m.1.width :=
      fun m hm => hw m (List.mem_cons_of_mem _ hm)
    have hgap06 : ∀ t : String, 0 ≤ (if t = "motorcycle" then baseGap * 0.6 else baseGap) := by
      intro t; split <;> linarith
    by_cases hwr : w = true
    · rw [if_pos hwr] at hmb
      rcases List.mem_cons.mp hmb with h | h
      · subst h
        refine ⟨fun hf => by simp [hwr] at hf, fun _ => ?_⟩
        have := hgap06 obj.type
        dsimp only
        have hwd := hw (obj, w) (List.mem_cons_self _ _)
        dsimp at hwd
        linarith
      · have hrec := ih _ hwrest mb h
        have hstep : ix - obj.width - (if obj.type = "motorcycle" then baseGap * 0.6
            else baseGap) ≤ ix := by
          have := hgap06 obj.type
          have hwd := hw (obj, w) (List.mem_cons_self _ _)
          dsimp at hwd
          linarith
        exact ⟨fun hf => List.mem_cons_of_mem _ (hrec.1 hf),
               fun ht => le_trans (hrec.2 ht) hstep⟩
    · rw [if_neg hwr] at hmb
      rcases List.mem_cons.mp hmb with h | h
      · subst h
        exact ⟨fun _ => List.mem_cons_self _ _, fun ht => absurd ht hwr⟩
      · have hrec := ih _ hwrest mb h
        exact ⟨fun hf => List.mem_cons_of_mem _ (hrec.1 hf), hrec.2⟩

/-- Wrap re-insertion, leftward lanes: non-wrapped entries pass through
unchanged, and every re-inserted wrapped entry starts above the running
insertion cursor. -/
theorem reinsertLeft_mem (baseGap : ℚ) (hgap : 0 ≤ baseGap) :
    ∀ (l : List (GameObject × Bool)) (ix : ℚ),
      (∀ m ∈ l, 0 ≤ m.1.width) →
      ∀ mb ∈ reinsertLeft baseGap ix l,
        (mb.2 = false → mb ∈ l) ∧ (mb.2 = true → ix ≤ mb.1.x) := by
  intro l
  induction l with
  | nil => intro ix _ mb h; simp [reinsertLeft] at h
  | cons m rest ih =>
    intro ix hw mb hmb
    obtain ⟨obj, w⟩ := m
    rw [reinsertLeft] at hmb
    have hwrest : ∀ m ∈ rest, 0 ≤ m.1.width :=
      fun m hm => hw m (List.mem_cons_of_mem _ hm)
    have hgap06 : ∀ t : String, 0 ≤ (if t = "motorcycle" then baseGap * 0.6 else baseGap) := by
      intro t; split <;> linarith
    by_cases hwr : w = true
    · rw [if_pos hwr] at hmb
      rcases List.mem_cons.mp hmb with h | h
      · subst h
        refine ⟨fun hf => by simp [hwr] at hf, fun _ => ?_⟩
        have := hgap06 obj.type
        dsimp only
        linarith
      · have hrec := ih _ hwrest mb h
        have hstep : ix ≤ ix + obj.width + (if obj.type = "motorcycle" then baseGap * 0.6
            else baseGap) := by
          have := hgap06 obj.type
          have hwd := hw (obj, w) (List.mem_cons_self _ _)
          dsimp at hwd
          linarith
        exact ⟨fun hf => List.mem_cons_of_mem _ (hrec.1 hf),
               fun ht => le_trans hstep (hrec.2 ht)⟩
    · rw [if_neg hwr] at hmb
      rcases List.mem_cons.mp hmb with h | h
      · subst h
        exact ⟨fun _ => List.mem_cons_self _ _, fun ht => absurd ht hwr⟩
      · have hrec := ih _ hwrest mb h
        exact ⟨fun hf => List.mem_cons_of_mem _ (hrec.1 hf), hrec.2⟩

/-- Rightward wrap re-insertion: every pair involving a wrapped object is
disjoint (the wrapped object is parked strictly behind the cursor, which
starts below every non-wrapped object). -/
theorem reinsertRight_pairwise_wrapped (baseGap : ℚ) (hgap : 0 ≤ baseGap) :
    ∀ (l : List (GameObject × Bool)) (ix : ℚ),
      (∀ m ∈ l, 0 ≤ m.1.width) →
      (∀ m ∈ l, m.2 = false → ix ≤ m.1.x) →
      (reinsertRight baseGap ix l).Pairwise
        (fun a b => a.2 = true ∨ b.2 = true → HDisjoint a.1 b.1) := by
  intro l
  induction l with
  | nil => intro ix _ _; simp [reinsertRight]
  | cons m rest ih =>
    intro ix hw hnw
    obtain ⟨obj, w⟩ := m
    rw [reinsertRight]
    have hwrest : ∀ m ∈ rest, 0 ≤ m.1.width :=
      fun m hm => hw m (List.mem_cons_of_mem _ hm)
    have hgap06 : 0 ≤ (if obj.type = "motorcycle" then baseGap * 0.6 else baseGap) := by
      split <;> linarith
    have hwd : 0 ≤ obj.width := by
      have := hw (obj, w) (List.mem_cons_self _ _); exact this
    by_cases hwr : w = true
    · rw [if_pos hwr]
      refine List.Pairwise.cons ?_ (ih _ hwrest ?_)
      · intro mb hmb _
        have hrec := reinsertRight_mem baseGap hgap rest _ hwrest mb hmb
        by_cases hmbw : mb.2 = true
        · exact Or.inr (by have := hrec.2 hmbw; dsimp only; linarith)
        · have hmem := hrec.1 (by simpa using hmbw)
          have hx := hnw mb (List.mem_cons_of_mem _ hmem) (by simpa using hmbw)
          exact Or.inl (by dsimp only; linarith)
      · intro m hm hmf
        have := hnw m (List.mem_cons_of_mem _ hm) hmf
        linarith
    · rw [if_neg hwr]
      refine List.Pairwise.cons ?_ (ih _ hwrest ?_)
      · intro mb hmb hor
        have hrec := reinsertRight_mem baseGap hgap rest _ hwrest mb hmb
        rcases hor with h | h
        · exact absurd h hwr
        · have hxobj := hnw (obj, w) (List.mem_cons_self _ _) (by simpa using hwr)
          have := hrec.2 h
          exact Or.inr (by dsimp only at hxobj ⊢; linarith)
      · exact fun m hm hmf => hnw m (List.mem_cons_of_mem _ hm) hmf

/-- Leftward wrap re-insertion: every pair involving a wrapped object is
disjoint. -/
theorem reinsertLeft_pairwise_wrapped (baseGap : ℚ) (hgap : 0 ≤ baseGap) :
    ∀ (l : List (GameObject × Bool)) (ix : ℚ),
      (∀ m ∈ l, 0 ≤ m.1.width) →
      (∀ m ∈ l, m.2 = false → m.1.x + m.1.width ≤ ix) →
      (reinsertLeft baseGap ix l).Pairwise
        (fun a b => a.2 = true ∨ b.2 = true → HDisjoint a.1 b.1) := by
  intro l
  induction l with
  | nil => intro ix _ _; simp [reinsertLeft]
  | cons m rest ih =>
    intro ix hw hnw
    obtain ⟨obj, w⟩ := m
    rw [reinsertLeft]
    have hwrest : ∀ m ∈ rest, 0 ≤ m.1.width :=
      fun m hm => hw m (List.mem_cons_of_mem _ hm)
    have hgap06 : 0 ≤ (if obj.type = "motorcycle" then baseGap * 0.6 else baseGap) := by
      split <;> linarith
    have hwd : 0 ≤ obj.width := by
      have := hw (obj, w) (List.mem_cons_self _ _); exact this
    by_cases hwr : w = true
    · rw [if_pos hwr]
      refine List.Pairwise.cons ?_ (ih _ hwrest ?_)
      · intro mb hmb _
        have hrec := reinsertLeft_mem baseGap hgap rest _ hwrest mb hmb
        by_cases hmbw : mb.2 = true
        · exact Or.inl (by have := hrec.2 hmbw; dsimp only; linarith)
        · have hmem := hrec.1 (by simpa using hmbw)
          have hx := hnw mb (List.mem_cons_of_mem _ hmem) (by simpa using hmbw)
          exact Or.inr (by dsimp only; linarith)
      · intro m hm hmf
        have := hnw m (List.mem_cons_of_mem _ hm) hmf
        linarith
    · rw [if_neg hwr]
      refine List.Pairwise.cons ?_ (ih _ hwrest ?_)
      · intro mb hmb hor
        have hrec := reinsertLeft_mem baseGap hgap rest _ hwrest mb hmb
        rcases hor with h | h
        · exact absurd h hwr
        · have hxobj := hnw (obj, w) (List.mem_cons_self _ _) (by simpa using hwr)
          have := hrec.2 h
          exact Or.inl (by dsimp only at hxobj ⊢; linarith)
      · exact fun m hm hmf => hnw m (List.mem_cons_of_mem _ hm) hmf

/-- Rightward wrap re-insertion keeps the whole lane pairwise disjoint when
the surviving (non-wrapped) objects already are. -/
theorem reinsertRight_pairwise_full (baseGap : ℚ) (hgap : 0 ≤ baseGap) :
    ∀ (l : List (GameObject × Bool)) (ix : ℚ),
      (∀ m ∈ l, 0 ≤ m.1.width) →
      (∀ m ∈ l, m.2 = false → ix ≤ m.1.x) →
      ((l.filter (fun m => !m.2)).map (·.1)).Pairwise HDisjoint →
      ((reinsertRight baseGap ix l).map (·.1)).Pairwise HDisjoint := by
  intro l
  induction l with
  | nil => intro ix _ _ _; simp [reinsertRight]
  | cons m rest ih =>
    intro ix hw hnw hp
    obtain ⟨obj, w⟩ := m
    rw [reinsertRight]
    have hwrest : ∀ m ∈ rest, 0 ≤ m.1.width :=
      fun m hm => hw m (List.mem_cons_of_mem _ hm)
    have hnwrest : ∀ m ∈ rest, m.2 = false → ix ≤ m.1.x :=
      fun m hm hmf => hnw m (List.mem_cons_of_mem _ hm) hmf
    have hgap06 : 0 ≤ (if obj.type = "motorcycle" then baseGap * 0.6 else baseGap) := by
      split <;> linarith
    have hwd : 0 ≤ obj.width := hw (obj, w) (List.mem_cons_self _ _)
    by_cases hwr : w = true
    · rw [if_pos hwr]
      have hpr : ((rest.filter (fun m => !m.2)).map (·.1)).Pairwise HDisjoint := by
        have hfe : ((obj, w) :: rest).filter (fun m => !m.2) = rest.filter (fun m => !m.2) := by
          simp [List.filter, hwr]
        rwa [hfe] at hp
      simp only [List.map_cons]
      refine List.Pairwise.cons ?_ (ih _ hwrest (fun m hm hmf => by
        have := hnwrest m hm hmf
        linarith) hpr)
      intro b hb
      simp only [List.mem_map] at hb
      obtain ⟨mb, hmb, rfl⟩ := hb
      have hrec := reinsertRight_mem baseGap hgap rest _ hwrest mb hmb
      by_cases hmbw : mb.2 = true
      · exact Or.inr (by have := hrec.2 hmbw; dsimp only; linarith)
      · have hmem := hrec.1 (by simpa using hmbw)
        have hx := hnwrest mb hmem (by simpa using hmbw)
        exact Or.inl (by dsimp only; linarith)
    · rw [if_neg hwr]
      have hfil : ((obj, w) :: rest).filter (fun m => !m.2) =
          (obj, w) :: rest.filter (fun m => !m.2) := by
        simp only [Bool.not_eq_true] at hwr
        simp [List.filter, hwr]
      rw [hfil, List.map_cons, List.pairwise_cons] at hp
      simp only [List.map_cons]
      refine List.Pairwise.cons ?_ (ih _ hwrest hnwrest hp.2)
      intro b hb
      simp only [List.mem_map] at hb
      obtain ⟨mb, hmb, rfl⟩ := hb
      have hrec := reinsertRight_mem baseGap hgap rest _ hwrest mb hmb
      by_cases hmbw : mb.2 = true
      · have hxobj := hnw (obj, w) (List.mem_cons_self _ _) (by simpa using hwr)
        have := hrec.2 hmbw
        exact Or.inr (by dsimp only at hxobj ⊢; linarith)
      · have hmem := hrec.1 (by simpa using hmbw)
        refine hp.1 mb.1 ?_
        simp only [List.mem_map]
        exact ⟨mb, List.mem_filter.mpr ⟨hmem, by simpa using hmbw⟩, rfl⟩

/-- Leftward wrap re-insertion keeps the whole lane pairwise disjoint when
the surviving (non-wrapped) objects already are. -/
theorem reinsertLeft_pairwise_full (baseGap : ℚ) (hgap : 0 ≤ baseGap) :
    ∀ (l : List (GameObject × Bool)) (ix : ℚ),
      (∀ m ∈ l, 0 ≤ m.1.width) →
      (∀ m ∈ l, m.2 = false → m.1.x + m.1.width ≤ ix) →
      ((l.filter (fun m => !m.2)).map (·.1)).Pairwise HDisjoint →
      ((reinsertLeft baseGap ix l).map (·.1)).Pairwise HDisjoint := by
  intro l
  induction l with
  | nil => intro ix _ _ _; simp [reinsertLeft]
  | cons m rest ih =>
    intro ix hw hnw hp
    obtain ⟨obj, w⟩ := m
    rw [reinsertLeft]
    have hwrest : ∀ m ∈ rest, 0 ≤ m.1.width :=
      fun m hm => hw m (List.mem_cons_of_mem _ hm)
    have hnwrest : ∀ m ∈ rest, m.2 = false → m.1.x + m.1.width ≤ ix :=
      fun m hm hmf => hnw m (List.mem_cons_of_mem _ hm) hmf
    have hgap06 : 0 ≤ (if obj.type = "motorcycle" then baseGap * 0.6 else baseGap) := by
      split <;> linarith
    have hwd : 0 ≤ obj.width := hw (obj, w) (List.mem_cons_self _ _)
    by_cases hwr : w = true
    · rw [if_pos hwr]
      have hpr : ((rest.filter (fun m => !m.2)).map (·.1)).Pairwise HDisjoint := by
        have hfe : ((obj, w) :: rest).filter (fun m => !m.2) = rest.filter (fun m => !m.2) := by
          simp [List.filter, hwr]
        rwa [hfe] at hp
      simp only [List.map_cons]
      refine List.Pairwise.cons ?_ (ih _ hwrest (fun m hm hmf => by
        have := hnwrest m hm hmf
        linarith) hpr)
      intro b hb
      simp only [List.mem_map] at hb
      obtain ⟨mb, hmb, rfl⟩ := hb
      have hrec := reinsertLeft_mem baseGap hgap rest _ hwrest mb hmb
      by_cases hmbw : mb.2 = true
      · exact Or.inl (by have := hrec.2 hmbw; dsimp only; linarith)
      · have hmem := hrec.1 (by simpa using hmbw)
        have hx := hnwrest mb hmem (by simpa using hmbw)
        exact Or.inr (by dsimp only; linarith)
    · rw [if_neg hwr]
      have hfil : ((obj, w) :: rest).filter (fun m => !m.2) =
          (obj, w) :: rest.filter (fun m => !m.2) := by
        simp only [Bool.not_eq_true] at hwr
        simp [List.filter, hwr]
      rw [hfil, List.map_cons, List.pairwise_cons] at hp
      simp only [List.map_cons]
      refine List.Pairwise.cons ?_ (ih _ hwrest hnwrest hp.2)
      intro b hb
      simp only [List.mem_map] at hb
      obtain ⟨mb, hmb, rfl⟩ := hb
      have hrec := reinsertLeft_mem baseGap hgap rest _ hwrest mb hmb
      by_cases hmbw : mb.2 = true
      · have hxobj := hnw (obj, w) (List.mem_cons_self _ _) (by simpa using hwr)
        have := hrec.2 hmbw
        exact Or.inl (by dsimp only at hxobj ⊢; linarith)
      · have hmem := hrec.1 (by simpa using hmbw)
        refine hp.1 mb.1 ?_
        simp only [List.mem_map]
        exact ⟨mb, List.mem_filter.mpr ⟨hmem, by simpa using hmbw⟩, rfl⟩

/-- The road ordering pass relation for rightward lanes: consecutive
objects in the sorted order are either both motorcycles or separated. -/
theorem pushChainGo_chain_right (minGap : ℚ) (hgap : 0 ≤ minGap) :
    ∀ (l : List (ℕ × GameObject)) (a : ℕ × GameObject),
      List.Chain' (fun a b => (a.2.type = "motorcycle" ∧ b.2.type = "motorcycle") ∨
        b.2.x + b.2.width +
          (if a.2.type = "motorcycle" ∨ b.2.type = "motorcycle" then minGap * 0.6 else minGap) ≤
          a.2.x) (a :: pushChainGo 1 minGap a l) := by
  intro l
  induction l with
  | nil => intro a; simp [pushChainGo]
  | cons b rest ih =>
    intro a
    simp only [pushChainGo]
    by_cases hm : a.2.type = "motorcycle" ∧ b.2.type = "motorcycle"
    · rw [if_pos hm]
      exact List.chain'_cons.mpr ⟨Or.inl hm, ih b⟩
    · rw [if_neg hm]
      simp only [if_true]
      by_cases hpush : b.2.x > a.2.x -
          (if a.2.type = "motorcycle" ∨ b.2.type = "motorcycle" then minGap * 0.6 else minGap) -
          b.2.width
      · rw [if_pos hpush]
        refine List.chain'_cons.mpr ⟨Or.inr ?_, ih _⟩
        dsimp only
        linarith
      · rw [if_neg hpush]
        refine List.chain'_cons.mpr ⟨Or.inr ?_, ih _⟩
        push_neg at hpush
        linarith
    
/-- The road ordering pass relation for leftward lanes. -/
theorem pushChainGo_chain_left (dir : ℤ) (hdir : ¬ dir = 1) (minGap : ℚ) (hgap : 0 ≤ minGap) :
    ∀ (l : List (ℕ × GameObject)) (a : ℕ × GameObject),
      List.Chain' (fun a b => (a.2.type = "motorcycle" ∧ b.2.type = "motorcycle") ∨
        a.2.x + a.2.width +
          (if a.2.type = "motorcycle" ∨ b.2.type = "motorcycle" then minGap * 0.6 else minGap) ≤
          b.2.x) (a :: pushChainGo dir minGap a l) := by
  intro l
  induction l with
  | nil => intro a; simp [pushChainGo]
  | cons b rest ih =>
    intro a
    simp only [pushChainGo]
    by_cases hm : a.2.type = "motorcycle" ∧ b.2.type = "motorcycle"
    · rw [if_pos hm]
      exact List.chain'_cons.mpr ⟨Or.inl hm, ih b⟩
    · rw [if_neg hm]
      rw [if_neg hdir]
      by_cases hpush : b.2.x < a.2.x + a.2.width +
          (if a.2.type = "motorcycle" ∨ b.2.type = "motorcycle" then minGap * 0.6 else minGap)
      · rw [if_pos hpush]
        refine List.chain'_cons.mpr ⟨Or.inr ?_, ih _⟩
        dsimp only
        linarith
      · rw [if_neg hpush]
        refine List.chain'_cons.mpr ⟨Or.inr ?_, ih _⟩
        push_neg at hpush
        linarith

theorem gapMult_nonneg (spacing : ℚ) (hs : 0 ≤ spacing) (b : Bool) :
    0 ≤ spacing * (if b = true then (0.6 : ℚ) else 1) := by
  cases b <;> simp <;> linarith

/-- Rightward road spawn: every vehicle lies entirely below `-off`, and the
spawned vehicles are pairwise disjoint. -/
theorem roadBuild_right (cfg : LaneConfig) (r : LaneRand) (spacing lsm : ℚ) (hs : 0 ≤ spacing) :
    ∀ (data : List VehicleData) (i : ℕ) (off : ℚ),
      (∀ d ∈ data, 0 ≤ d.width) →
      (∀ o ∈ roadBuild cfg r spacing lsm 1 data i off, o.x + o.width ≤ -off) ∧
      (roadBuild cfg r spacing lsm 1 data i off).Pairwise HDisjoint := by
  intro data
  induction data with
  | nil =>
    intro i off _
    constructor
    · intro o ho; simp [roadBuild] at ho
    · simp [roadBuild]
  | cons d rest ih =>
    intro i off hwd
    have hG := gapMult_nonneg spacing hs ((d.type == "motorcycle") || nextIsMoto rest)
    have hw0 : 0 ≤ d.width := (hwd d (List.mem_cons_self _ _))
    have hrec := ih (i + 1) (off + d.width + spacing *
        (if ((d.type == "motorcycle") || nextIsMoto rest) = true then (0.6 : ℚ) else 1))
        (fun d' hd' => hwd d' (List.mem_cons_of_mem _ hd'))
    simp only [roadBuild, if_true]
    constructor
    · intro o ho
      rcases List.mem_cons.mp ho with h | h
      · subst h
        dsimp only
        linarith
      · have := hrec.1 o h
        linarith
    · rw [List.pairwise_cons]
      refine ⟨?_, hrec.2⟩
      intro o ho
      have := hrec.1 o ho
      exact Or.inr (by dsimp only; linarith)

/-- Leftward road spawn: every vehicle lies entirely above
`GAME_WIDTH + off`, and the spawned vehicles are pairwise disjoint. -/
theorem roadBuild_left (cfg : LaneConfig) (r : LaneRand) (spacing lsm : ℚ) (dir : ℤ)
    (hdir : ¬ dir = 1) (hs : 0 ≤ spacing) :
    ∀ (data : List VehicleData) (i : ℕ) (off : ℚ),
      (∀ d ∈ data, 0 ≤ d.width) →
      (∀ o ∈ roadBuild cfg r spacing lsm dir data i off, GAME_WIDTH + off ≤ o.x) ∧
      (roadBuild cfg r spacing lsm dir data i off).Pairwise HDisjoint := by
  intro data
  induction data with
  | nil =>
    intro i off _
    constructor
    · intro o ho; simp [roadBuild] at ho
    · simp [roadBuild]
  | cons d rest ih =>
    intro i off hwd
    have hG := gapMult_nonneg spacing hs ((d.type == "motorcycle") || nextIsMoto rest)
    have hw0 : 0 ≤ d.width := (hwd d (List.mem_cons_self _ _))
    have hrec := ih (i + 1) (off + d.width + spacing *
        (if ((d.type == "motorcycle") || nextIsMoto rest) = true then (0.6 : ℚ) else 1))
        (fun d' hd' => hwd d' (List.mem_cons_of_mem _ hd'))
    simp only [roadBuild]
    rw [if_neg hdir]
    constructor
    · intro o ho
      rcases List.mem_cons.mp ho with h | h
      · subst h
        dsimp only
        linarith
      · have := hrec.1 o h
        linarith
    · rw [List.pairwise_cons]
      refine ⟨?_, hrec.2⟩
      intro o ho
      have := hrec.1 o ho
      exact Or.inl (by dsimp only; linarith)

theorem roadVehicleData_width_nonneg (level y : ℕ) (r : LaneRand) (n : ℕ) :
    ∀ d ∈ roadVehicleData level y r n, 0 ≤ d.width := by
  intro d hd
  simp only [roadVehicleData, List.mem_map] at hd
  obtain ⟨i, _, rfl⟩ := hd
  exact OBJECT_WIDTHS_getD_nonneg _ 60 (by norm_num)

/-- Road spawn is pairwise disjoint for either travel direction. -/
theorem roadBuild_pairwise_any (cfg : LaneConfig) (r : LaneRand) (spacing lsm : ℚ) (dir : ℤ)
    (hs : 0 ≤ spacing) (data : List VehicleData) (i : ℕ) (off : ℚ)
    (hwd : ∀ d ∈ data, 0 ≤ d.width) :
    (roadBuild cfg r spacing lsm dir data i off).Pairwise HDisjoint := by
  by_cases hdir : dir = 1
  · subst hdir
    exact (roadBuild_right cfg r spacing lsm hs data i off hwd).2
  · exact (roadBuild_left cfg r spacing lsm dir hdir hs data i off hwd).2

theorem laneGap_nonneg (level : ℕ) (t : LaneType) : 0 ≤ laneGap level t := by
  unfold laneGap
  split_ifs <;> norm_num [TILE_SIZE]

/-- Water-lane spawn: objects march rightward from the running cursor with
nonnegative widths, and successive objects never overlap. -/
theorem waterBuild_spec (cfg : LaneConfig) (level : ℕ) (r : LaneRand) (sm : ℚ) :
    ∀ (i : ℕ) (x : ℚ),
      (∀ o ∈ waterBuild cfg level r sm i x, x ≤ o.x ∧ 0 ≤ o.width) ∧
      (waterBuild cfg level r sm i x).Pairwise HDisjoint := by
  intro i x
  induction i, x using waterBuild.induct cfg level r sm with
  | case1 i x hx gap isTurtle objectType objectWidth ih =>
    have hW : 0 ≤ objectWidth := OBJECT_WIDTHS_getD_nonneg objectType 100 (by norm_num)
    have hG : 0 ≤ gap := by
      show (0 : ℚ) ≤ if h : level = 1 then TILE_SIZE else 32
      split <;> norm_num [TILE_SIZE]
    have hunf : waterBuild cfg level r sm i x =
        { x := x, y := (cfg.y : ℚ) * TILE_SIZE, width := objectWidth, height := TILE_SIZE,
          speed := (cfg.speed.getD 1) * sm, direction := cfg.direction.getD 1,
          type := objectType, isDiving := false,
          divePhase := if cfg.objectType = some "turtle" then some .surface else none,
          diveTimer := if cfg.objectType = some "turtle" then
              some (DIVE_PHASES.duration .surface * 0.4 +
                r.dive0 i * DIVE_PHASES.duration .surface * 0.6)
            else none,
          colorVariant := (⌊r.color i * 4⌋).toNat } ::
          waterBuild cfg level r sm (i + 1) (x + objectWidth + gap) := by
      rw [waterBuild, dif_pos hx]
      rfl
    obtain ⟨ihmem, ihpw⟩ := ih
    rw [hunf]
    constructor
    · intro o ho
      rcases List.mem_cons.mp ho with h | h
      · subst h
        exact ⟨le_refl x, hW⟩
      · have := ihmem o h
        exact ⟨by linarith [this.1], this.2⟩
    · rw [List.pairwise_cons]
      refine ⟨?_, ihpw⟩
      intro o ho
      have := ihmem o ho
      exact Or.inl (by dsimp only; linarith [this.1])
  | case2 i x hx =>
    constructor
    · intro o ho
      rw [waterBuild, dif_neg hx] at ho
      simp at ho
    · rw [waterBuild, dif_neg hx]
      exact List.Pairwise.nil

/-- Spawn invariant: `createLaneObjects` never creates two overlapping
hazards, for any lane configuration, level and random draws. -/
theorem createLaneObjects_pairwise (cfg : LaneConfig) (level : ℕ) (r : LaneRand) :
    (createLaneObjects cfg level r).Pairwise HDisjoint := by
  unfold createLaneObjects
  by_cases h1 : cfg.type = .safe ∨ cfg.type = .home ∨ cfg.objectType = none
  · rw [if_pos h1]
    exact List.Pairwise.nil
  · rw [if_neg h1]
    by_cases h2 : cfg.type = .road
    · rw [if_pos h2]
      refine roadBuild_pairwise_any cfg r _ _ _ ?_ _ 0 0 ?_
      · refine le_trans ?_ (le_max_right _ _)
        split_ifs <;> norm_num [TILE_SIZE]
      · exact roadVehicleData_width_nonneg level cfg.y r _
    · rw [if_neg h2]
      by_cases h3 : cfg.type = .water
      · rw [if_pos h3]
        exact (waterBuild_spec cfg level r _ 0 _).2
      · rw [if_neg h3]
        exact List.Pairwise.nil

/-- Wrap re-insertion keeps the whole lane pairwise disjoint whenever the
surviving (non-wrapped) objects already are, no matter how many objects
wrapped in the same frame. -/
theorem wrapReinsert_pairwise (baseGap : ℚ) (dir : ℤ) (l : List (GameObject × Bool))
    (hgap : 0 ≤ baseGap) (hw : ∀ m ∈ l, 0 ≤ m.1.width)
    (hp : ((l.filter (fun m => !m.2)).map (·.1)).Pairwise HDisjoint) :
    ((wrapReinsert baseGap dir l).map (·.1)).Pairwise HDisjoint := by
  simp only [wrapReinsert]
  by_cases hdir : dir = 1
  · rw [if_pos hdir]
    refine reinsertRight_pairwise_full baseGap hgap l _ hw ?_ hp
    intro m hm hmf
    unfold insertX0Right
    refine foldr_min_le_mem _ _ _ ?_
    simp only [List.map_map, List.mem_map, List.mem_filter, Function.comp]
    exact ⟨m, ⟨hm, by simp [hmf]⟩, rfl⟩
  · rw [if_neg hdir]
    refine reinsertLeft_pairwise_full baseGap hgap l _ hw ?_ hp
    intro m hm hmf
    unfold insertX0Left
    refine le_foldr_max_mem _ _ _ ?_
    simp only [List.map_map, List.mem_map, List.mem_filter, Function.comp]
    exact ⟨m, ⟨hm, by simp [hmf]⟩, rfl⟩

/-- Per-frame update of a water lane preserves pairwise disjointness of the
lane's hazards: the shared lane speed and direction translate every object
by the same amount, and any wrap re-insertion places wrapped objects beyond
the surviving ones. -/
theorem updateLane_water_pairwise (level : ℕ) (mult dt : ℚ) (u : ℕ → ℚ) (lane : Lane)
    (s : ℚ) (d : ℤ)
    (hwt : lane.type = .water)
    (hsd : ∀ o ∈ lane.objects, o.speed = s ∧ o.direction = d)
    (hwidth : ∀ o ∈ lane.objects, 0 ≤ o.width)
    (hpair : lane.objects.Pairwise HDisjoint) :
    (updateLane level mult dt u lane).objects.Pairwise HDisjoint := by
  have h1 : ¬(lane.type = .safe ∨ lane.type = .home) := by simp [hwt]
  have h2 : ¬ lane.type = .road := by simp [hwt]
  have hmp : ((movePass mult dt u 0 lane.objects).map (·.1)).Pairwise HDisjoint :=
    movePass_pairwise mult dt u s d lane.objects 0 hsd hpair
  have hmw : ∀ mb ∈ movePass mult dt u 0 lane.objects, 0 ≤ mb.1.width :=
    movePass_width mult dt u lane.objects 0 hwidth
  simp only [updateLane]
  rw [if_neg h1, if_neg h2]
  by_cases hany : (movePass mult dt u 0 lane.objects).any (·.2) = true
  · rw [if_pos hany]
    refine wrapReinsert_pairwise _ _ _ (laneGap_nonneg level lane.type) hmw ?_
    exact hmp.sublist ((List.filter_sublist _).map _)
  · rw [if_neg hany]
    exact hmp

/-- **C2 (counterexample).** A road lane whose hazards are pairwise
disjoint before the frame: one frame of movement lets the faster
motorcycles catch the leading truck, the ordering pass pushes the first
motorcycle back, skips the gap check between the two motorcycles
(both-motorcycle exemption), and re-places the rear truck relative to the
second motorcycle — leaving it overlapping the first motorcycle.  The
overlapping pair is not a both-motorcycle pair, refuting the claimed
no-overlap invariant for road lanes after the per-frame update. -/
theorem road_pass_overlap_counterexample :
    cexRoadLane.type = .road ∧
    cexRoadLane.objects.Pairwise HDisjoint ∧
    ¬ ((updateLane 2 1 16 (fun _ => 0) cexRoadLane).objects.Pairwise
        (fun a b => (a.type = "motorcycle" ∧ b.type = "motorcycle") ∨ HDisjoint a b)) := by
  refine ⟨rfl, ?_, ?_⟩
  · norm_num [cexRoadLane, List.pairwise_cons, HDisjoint]
  · have hobjs : (updateLane 2 1 16 (fun _ => 0) cexRoadLane).objects =
        [ { x := 300, y := 320, width := 80, height := 36, speed := 0, direction := 1,
            type := "truck" },
          { x := 251, y := 320, width := 25, height := 36, speed := 5, direction := 1,
            type := "motorcycle" },
          { x := 277, y := 320, width := 25, height := 36, speed := 27, direction := 1,
            type := "motorcycle" },
          { x := 173, y := 320, width := 80, height := 36, speed := 4, direction := 1,
            type := "truck" } ] := by
      norm_num [updateLane, movePass, moveObj, roadPass, pushChain, pushChainGo, roadSortRel,
        List.insertionSort, List.orderedInsert, cexRoadLane, TILE_SIZE, GAME_WIDTH, wrapBuffer,
        List.enum, List.enumFrom, List.find?, List.filterMap]
      simp
    intro h
    rw [hobjs] at h
    have hp := List.pairwise_iff_getElem.mp h 1 3 (by norm_num) (by norm_num) (by norm_num)
    simp only [List.getElem_cons_succ, List.getElem_cons_zero] at hp
    rcases hp with ⟨hm1, hm2⟩ | hd
    · simp at hm2
    · norm_num [HDisjoint] at hd

/-- **C2 (amended).** Hazard separation as actually enforced by the code:
(1) `createLaneObjects` spawns every lane (any configuration, level and
random draws) with pairwise disjoint hazards; (2) the per-frame update of a
water lane whose objects share one speed and one direction — as the spawned
lanes do, the shared speed being the lane speed times the level multiplier —
preserves pairwise disjointness, including wrap re-insertion of any number
of wrapped hazards in the same frame; (3) for road lanes the ordering pass
guarantees only a chain property: each pair CONSECUTIVE in the
position-sorted order is either a both-motorcycle pair or separated by the
required gap (`0.6 * minGap` when either member is a motorcycle, else
`minGap`) in the direction of travel.  Global pairwise non-overlap of road
lanes after the update does not hold (see the counterexample). -/
theorem hazard_disjointness_amended
    (cfg : LaneConfig) (level : ℕ) (r : LaneRand)
    (mult dt : ℚ) (u : ℕ → ℚ) (lane : Lane) (s : ℚ) (d : ℤ)
    (hwt : lane.type = .water)
    (hsd : ∀ o ∈ lane.objects, o.speed = s ∧ o.direction = d)
    (hwidth : ∀ o ∈ lane.objects, 0 ≤ o.width)
    (hpair : lane.objects.Pairwise HDisjoint)
    (minGap : ℚ) (hgap : 0 ≤ minGap) (dir : ℤ)
    (a : ℕ × GameObject) (l : List (ℕ × GameObject)) :
    (createLaneObjects cfg level r).Pairwise HDisjoint ∧
    (updateLane level mult dt u lane).objects.Pairwise HDisjoint ∧
    List.Chain' (fun p q => (p.2.type = "motorcycle" ∧ q.2.type = "motorcycle") ∨
      q.2.x + q.2.width +
        (if p.2.type = "motorcycle" ∨ q.2.type = "motorcycle" then minGap * 0.6 else minGap) ≤
        p.2.x) (a :: pushChainGo 1 minGap a l) ∧
    (¬ dir = 1 → List.Chain' (fun p q => (p.2.type = "motorcycle" ∧ q.2.type = "motorcycle") ∨
      p.2.x + p.2.width +
        (if p.2.type = "motorcycle" ∨ q.2.type = "motorcycle" then minGap * 0.6 else minGap) ≤
        q.2.x) (a :: pushChainGo dir minGap a l)) :=
  ⟨createLaneObjects_pairwise cfg level r,
   updateLane_water_pairwise level mult dt u lane s d hwt hsd hwidth hpair,
   pushChainGo_chain_right minGap hgap l a,
   fun hdir => pushChainGo_chain_left dir hdir minGap hgap l a⟩

/-- Concrete instantiation of the separation theorem at level 2: the row-1
water-lane configuration, a water lane holding two logs at the
level-multiplied speed `1.12`, and the ordering pass's chain property at
gap 40 on a truck–motorcycle pair in both directions. -/
theorem hazard_disjointness_amended_witness :
    (createLaneObjects ⟨.water, 1, some 0.8, some (-1), some "log"⟩ 2 zeroRand).Pairwise
      HDisjoint ∧
    (updateLane 2 1 16 (fun _ => 0) c2Lane).objects.Pairwise HDisjoint ∧
    List.Chain' (fun p q => (p.2.type = "motorcycle" ∧ q.2.type = "motorcycle") ∨
      q.2.x + q.2.width +
        (if p.2.type = "motorcycle" ∨ q.2.type = "motorcycle" then 40 * 0.6 else 40) ≤
        p.2.x) (c2Pair :: pushChainGo 1 40 c2Pair [c2Pair2]) ∧
    (¬ (-1 : ℤ) = 1 → List.Chain' (fun p q =>
      (p.2.type = "motorcycle" ∧ q.2.type = "motorcycle") ∨
      p.2.x + p.2.width +
        (if p.2.type = "motorcycle" ∨ q.2.type = "motorcycle" then 40 * 0.6 else 40) ≤
        q.2.x) (c2Pair :: pushChainGo (-1) 40 c2Pair [c2Pair2])) :=
  hazard_disjointness_amended ⟨.water, 1, some 0.8, some (-1), some "log"⟩ 2 zeroRand
    1 16 (fun _ => 0) c2Lane 1.12 1 rfl (by simp [c2Lane]) (by norm_num [c2Lane])
    (by norm_num [c2Lane, List.pairwise_cons, HDisjoint]) 40 (by norm_num) (-1)
    c2Pair [c2Pair2]

end TadpoleDash
